import Mathlib

/-!
# fast-teuxdeux: scheduling store and migration engine

A shallow embedding of the Go service under `go-app/`: the three SQLite tables
of `internal/database/database.go` (`getInlineSchema`), the request and
response shapes of `internal/models/models.go`, and the handlers of
`internal/handlers/handlers.go`, `internal/handlers/categories.go` and
`cmd/teuxdeux-clone/main.go`.

Modelling conventions.

* A table is the list of its rows in rowid order; the `sqlite_sequence`
  counters kept by `AUTOINCREMENT` are part of the store.
* Every SQL statement the handlers issue is a function on the store returning
  `Except String`: it fails when a declared constraint (`NOT NULL`, `UNIQUE`,
  `FOREIGN KEY` with `_foreign_keys=on`) is violated, and a failed statement
  leaves the store as it was.
* The handlers reach the database through the connection pool of
  `database/sql`. A write issued while the rows of a query are still open runs
  on a second connection, cannot commit while the first holds the read lock of
  the database file, and ends with "database is locked"
  (`execWhileRowsOpen`). Other failures of the engine (I/O) are not modelled.
* The columns declared `DATE` have NUMERIC affinity: a text written to them is
  kept as text unless it is a numeric literal, which is stored as the number
  it spells (`SqlValue`, `numericAffinity`). The same conversion is applied to
  the parameter such a column is compared with. Numbers that SQLite computes
  in floating point are kept as their literal, and their comparisons are left
  to the `Engine`.
* The Go driver hands a non-`NULL` value of a `DATE` column to `Scan` as a
  time, which `Scan` renders as text; this rendering is not part of the
  repository and is a field of the `Engine`.
* Timestamps (`CURRENT_TIMESTAMP`) are text, compared the way SQLite compares
  text values (by code point); they and the `today` of a migration pass are
  arguments (`now`, `today`) of the operations that read the clock.
* `SELECT` without `ORDER BY` yields the rows in rowid order; `ORDER BY` sorts
  them by its keys and keeps rows with equal keys in rowid order.
* A `time.Time` is its number of seconds since 1970-01-01 00:00:00 on the
  clock of the service's time zone, taken to have a fixed offset. Package
  `time` counts the seconds in 64 bits from an epoch far in the past, and
  `AddDate(0, 0, n)` adds `n` days in that wrapping arithmetic (`wrapAbs`).
* The `created_at` and `updated_at` of a row are only ever written by
  `CURRENT_TIMESTAMP`; the `time.Time` the driver parses from them is
  represented by that text.
* A handler is a function from its parsed request and the store to the HTTP
  response (status code and `models.APIResponse`) and the new store.
-/

namespace TeuxDeux

/-! ## Data model (`models.go`, `getInlineSchema`) -/

/-- A non-`NULL` value of a column declared `DATE` (NUMERIC affinity): an
integer, a number that SQLite reads from the given numeric literal through
floating point (an INTEGER or a REAL, not computed here), or a text. -/
inductive SqlValue where
  | integer (n : Int)
  | numeric (literal : String)
  | text (s : String)
deriving DecidableEq, Repr

/-- Row of table `categories` (`models.Category`). -/
structure Category where
  id : Int
  name : String
  color : String
  sort_order : Int
  created_at : String
  updated_at : String
deriving DecidableEq, Repr

/-- Row of table `todos`. -/
structure Todo where
  id : Int
  title : String
  completed : Bool
  category_id : Option Int
  scheduled_date : Option SqlValue
  sort_order : Int
  color : Option String
  recurring_pattern : Option String
  parent_id : Option Int
  created_at : String
  updated_at : String
deriving DecidableEq, Repr

/-- Row of table `todo_migrations` (`models.TodoMigration`). -/
structure TodoMigration where
  id : Int
  todo_id : Int
  from_date : Option SqlValue
  to_date : Option SqlValue
  migrated_at : String
deriving DecidableEq, Repr

/-- The database: the three tables and their `AUTOINCREMENT` counters. -/
structure Store where
  categories : List Category
  todos : List Todo
  todo_migrations : List TodoMigration
  seq_categories : Int
  seq_todos : Int
  seq_todo_migrations : Int
deriving DecidableEq, Repr

/-- What the model takes from the SQLite library and its Go driver without
computing it. `scanDate` is the text `Scan` puts into a `string` or
`sql.NullString` for a non-`NULL` value of a column declared `DATE`;
`numberLt` and `numberEq` are SQLite's `<` and `=` on two stored numbers of
which at least one is kept as a literal. -/
structure Engine where
  scanDate : SqlValue → String
  numberLt : SqlValue → SqlValue → Bool
  numberEq : SqlValue → SqlValue → Bool

/-- Type `models.CreateTodoRequest`; `CategoryID` is a pointer in the source. -/
structure CreateTodoRequest where
  Title : String
  CategoryID : Option Int
  ScheduledDate : String
  Color : String
  RecurringPattern : String
deriving DecidableEq, Repr

/-- Type `models.UpdateTodoRequest`: every field is a pointer, `none` is `nil`. -/
structure UpdateTodoRequest where
  Title : Option String
  Completed : Option Bool
  CategoryID : Option Int
  ScheduledDate : Option String
  SortOrder : Option Int
  Color : Option String
deriving DecidableEq, Repr

/-- Type `models.CreateCategoryRequest`. -/
structure CreateCategoryRequest where
  Name : String
  Color : String
deriving DecidableEq, Repr

/-- Type `models.Todo` as a read query fills it: the scanned columns of the
row of `todos`, `ScheduledDate` as `Scan` renders it, and the two joined
category columns, empty when the join found no category. The two times are
kept as the stored timestamps they were read from. -/
structure TodoView where
  ID : Int
  Title : String
  Completed : Bool
  CategoryID : Option Int
  CategoryName : String
  CategoryColor : String
  ScheduledDate : Option String
  SortOrder : Int
  Color : Option String
  RecurringPattern : Option String
  ParentID : Option Int
  CreatedAt : String
  UpdatedAt : String
deriving DecidableEq, Repr

/-- Type `models.WeeklyTodos`: one day of the 7-day view. -/
structure WeeklyTodos where
  Date : String
  Day : String
  Todos : List TodoView
deriving DecidableEq, Repr

/-- Type `models.DashboardData`. -/
structure DashboardData where
  WeeklyTodos : List WeeklyTodos
  SomedayTodos : List TodoView
  Categories : List Category
  TodayDate : String
  WeekStartDate : String
deriving DecidableEq, Repr

/-- The payloads the handlers put in `APIResponse.Data`. -/
inductive ResponseData where
  | none
  | id (n : Int)
  | migrated_count (n : Nat)
  | dashboard (d : DashboardData)
deriving DecidableEq, Repr

/-- Type `models.APIResponse` together with the HTTP status passed to `c.JSON`. -/
structure APIResponse where
  status : Nat
  success : Bool
  message : String
  data : ResponseData
  error : String
deriving DecidableEq, Repr

/-- Constant `http.StatusOK`. -/
def StatusOK : Nat := 200
/-- Constant `http.StatusCreated`. -/
def StatusCreated : Nat := 201
/-- Constant `http.StatusBadRequest`. -/
def StatusBadRequest : Nat := 400
/-- Constant `http.StatusInternalServerError`. -/
def StatusInternalServerError : Nat := 500

/-- A response with `Success: true` and a message. -/
def okResponse (status : Nat) (message : String) (data : ResponseData) : APIResponse :=
  { status := status, success := true, message := message, data := data, error := "" }

/-- A response with `Success: false` and an error text. -/
def errResponse (status : Nat) (error : String) : APIResponse :=
  { status := status, success := false, message := "", data := ResponseData.none, error := error }

/-- Client-side failure: a 4xx status. -/
def APIResponse.isClientError (r : APIResponse) : Bool :=
  decide (400 ≤ r.status) && decide (r.status < 500)

/-- Server-side failure: a 5xx status. -/
def APIResponse.isServerError (r : APIResponse) : Bool :=
  decide (500 ≤ r.status) && decide (r.status < 600)

/-! ## Values of the `DATE` columns -/

/-- The characters SQLite skips around a numeric literal: space, tab, line
feed, vertical tab, form feed, carriage return. -/
def isSqlSpace (c : Char) : Bool :=
  c.toNat == 32 || (decide (9 ≤ c.toNat) && decide (c.toNat ≤ 13))

/-- The number a run of decimal digits writes. -/
def digitsToNat (cs : List Char) : Nat :=
  cs.foldl (fun n c => 10 * n + (c.toNat - 48)) 0

/-- The parts of a well-formed numeric literal: sign, digits before and after
the point, whether it has a point or an exponent, and the exponent. -/
structure NumericLiteral where
  negative : Bool
  intDigits : List Char
  fracDigits : List Char
  realForm : Bool
  exponent : Int
deriving DecidableEq, Repr

/-- The characters after an optional sign. -/
def dropSign (cs : List Char) : List Char :=
  match cs with
  | c :: rest => if c == '-' || c == '+' then rest else c :: rest
  | [] => []

/-- What follows the `e` of a literal: an optional sign and at least one
digit; the result is the exponent and the characters left. -/
def parseExponent (cs : List Char) : Option (Int × List Char) :=
  let digits := (dropSign cs).takeWhile Char.isDigit
  if digits.isEmpty then none
  else
    some (if cs.head? == some '-' then -(digitsToNat digits : Int) else (digitsToNat digits : Int),
      (dropSign cs).dropWhile Char.isDigit)

/-- A text read as a numeric literal the way SQLite does for a column of
NUMERIC affinity: optional blanks, an optional sign, digits with an optional
point (at least one digit), an optional exponent, optional blanks; `none` when
the text is not of this form. -/
def parseNumericLiteral (cs : List Char) : Option NumericLiteral :=
  let signed := cs.dropWhile isSqlSpace
  let negative := signed.head? == some '-'
  let unsigned := dropSign signed
  let intDigits := unsigned.takeWhile Char.isDigit
  let afterInt := unsigned.dropWhile Char.isDigit
  let hasPoint := afterInt.head? == some '.'
  let fracDigits := if hasPoint then afterInt.tail.takeWhile Char.isDigit else []
  let afterFrac := if hasPoint then afterInt.tail.dropWhile Char.isDigit else afterInt
  if intDigits.isEmpty && fracDigits.isEmpty then none
  else
    match afterFrac with
    | [] =>
      some { negative := negative, intDigits := intDigits, fracDigits := fracDigits,
             realForm := hasPoint, exponent := 0 }
    | c :: rest =>
      if c == 'e' || c == 'E' then
        match parseExponent rest with
        | some (e, tail) =>
          if (tail.dropWhile isSqlSpace).isEmpty then
            some { negative := negative, intDigits := intDigits, fracDigits := fracDigits,
                   realForm := true, exponent := e }
          else none
        | none => none
      else if ((c :: rest).dropWhile isSqlSpace).isEmpty then
        some { negative := negative, intDigits := intDigits, fracDigits := fracDigits,
               realForm := hasPoint, exponent := 0 }
      else none

/-- The value a column of NUMERIC affinity keeps for a text written to it. A
text that is no numeric literal stays text. A literal of digits only is the
integer it writes when that fits 64 bits. A literal with a point or an
exponent is an integer when its value is one that floating point holds
exactly (at most 15 digits, a decimal exponent within 22, below 2^53). Every
other literal is a number kept as its literal. -/
def numericAffinity (s : String) : SqlValue :=
  match parseNumericLiteral s.toList with
  | none => SqlValue.text s
  | some lit =>
    let digits := lit.intDigits ++ lit.fracDigits
    let m : Int := digitsToNat digits
    let e : Int := lit.exponent - lit.fracDigits.length
    let sign : Int := if lit.negative then -1 else 1
    if !lit.realForm then
      if decide (-9223372036854775808 ≤ sign * m) && decide (sign * m ≤ 9223372036854775807)
      then SqlValue.integer (sign * m)
      else SqlValue.numeric s
    else if decide (digits.length ≤ 15) && decide (-22 ≤ e) && decide (e ≤ 22) then
      if 0 ≤ e then
        if m * 10 ^ e.toNat < 9007199254740992 then SqlValue.integer (sign * (m * 10 ^ e.toNat))
        else SqlValue.numeric s
      else if m % 10 ^ (-e).toNat = 0 then SqlValue.integer (sign * (m / 10 ^ (-e).toNat))
      else SqlValue.numeric s
    else SqlValue.numeric s

/-- SQLite's `<` on two text values (`BINARY` collation): the first differing
character decides, a proper prefix is smaller. -/
def textLtChars : List Char → List Char → Bool
  | [], [] => false
  | [], _ :: _ => true
  | _ :: _, [] => false
  | a :: as, b :: bs =>
    if a.toNat < b.toNat then true
    else if b.toNat < a.toNat then false
    else textLtChars as bs

/-- SQL `a < b` on text values. -/
def textLt (a b : String) : Bool :=
  textLtChars a.toList b.toList

/-- SQL `a < b` on two non-`NULL` values: a number is below every text, texts
compare by `textLt`, integers by their order. -/
def sqlLt (env : Engine) : SqlValue → SqlValue → Bool
  | SqlValue.integer x, SqlValue.integer y => decide (x < y)
  | SqlValue.integer x, SqlValue.numeric l =>
    env.numberLt (SqlValue.integer x) (SqlValue.numeric l)
  | SqlValue.integer _, SqlValue.text _ => true
  | SqlValue.numeric l, SqlValue.integer y =>
    env.numberLt (SqlValue.numeric l) (SqlValue.integer y)
  | SqlValue.numeric l, SqlValue.numeric k =>
    env.numberLt (SqlValue.numeric l) (SqlValue.numeric k)
  | SqlValue.numeric _, SqlValue.text _ => true
  | SqlValue.text _, SqlValue.integer _ => false
  | SqlValue.text _, SqlValue.numeric _ => false
  | SqlValue.text s, SqlValue.text t => textLt s t

/-- SQL `a = b` on two non-`NULL` values: a number never equals a text. -/
def sqlEq (env : Engine) : SqlValue → SqlValue → Bool
  | SqlValue.integer x, SqlValue.integer y => x == y
  | SqlValue.integer x, SqlValue.numeric l =>
    env.numberEq (SqlValue.integer x) (SqlValue.numeric l)
  | SqlValue.integer _, SqlValue.text _ => false
  | SqlValue.numeric l, SqlValue.integer y =>
    env.numberEq (SqlValue.numeric l) (SqlValue.integer y)
  | SqlValue.numeric l, SqlValue.numeric k =>
    env.numberEq (SqlValue.numeric l) (SqlValue.numeric k)
  | SqlValue.numeric _, SqlValue.text _ => false
  | SqlValue.text _, SqlValue.integer _ => false
  | SqlValue.text _, SqlValue.numeric _ => false
  | SqlValue.text s, SqlValue.text t => s == t

/-! ## The storage layer: the SQL statements of the handlers -/

/-- The rowid `AUTOINCREMENT` hands out: one more than the largest rowid the
table holds or has ever held. -/
def nextId (ids : List Int) (seq : Int) : Int :=
  max (ids.foldl max 0) seq + 1

/-- The database right after `runMigrations` on a fresh file: the five default
categories of the schema, nothing else. -/
def initialStore (now : String) : Store :=
  { categories :=
      [ { id := 1, name := "Personal", color := "#6b46c1", sort_order := 1,
          created_at := now, updated_at := now },
        { id := 2, name := "Grocery List", color := "#059669", sort_order := 2,
          created_at := now, updated_at := now },
        { id := 3, name := "Restaurants", color := "#dc2626", sort_order := 3,
          created_at := now, updated_at := now },
        { id := 4, name := "Books to Read", color := "#7c2d12", sort_order := 4,
          created_at := now, updated_at := now },
        { id := 5, name := "Things to Buy", color := "#1d4ed8", sort_order := 5,
          created_at := now, updated_at := now } ],
    todos := [],
    todo_migrations := [],
    seq_categories := 5,
    seq_todos := 0,
    seq_todo_migrations := 0 }

/-- Whether `categories` has a row with this id (the parent side of
`FOREIGN KEY (category_id) REFERENCES categories(id)`). -/
def categoryExists (st : Store) (cid : Int) : Bool :=
  st.categories.any (fun c => c.id == cid)

/-- Whether `todos` has a row with this id. -/
def todoExists (st : Store) (tid : Int) : Bool :=
  st.todos.any (fun t => t.id == tid)

/-- Function `nullString`: the empty string becomes SQL `NULL`. -/
def nullString (s : String) : Option String :=
  if s = "" then none else some s

/-- A write issued with `h.db.Exec` while the rows of an `h.db.Query` are still
open: the pool runs it on a second connection, the first one holds the read
lock of the database file for its open cursor, and the write ends with
"database is locked" whatever the statement is. -/
def execWhileRowsOpen (stmt : Store → Except String Store) (st : Store) :
    Except String Store :=
  match stmt st with
  | Except.error _ => Except.error "database is locked"
  | Except.ok _ => Except.error "database is locked"

/-- Statement `INSERT INTO todos (title, category_id, scheduled_date, color,
recurring_pattern) VALUES (?, ?, ?, ?, ?)`: the other columns take their
defaults, `scheduled_date` is kept under the affinity of its column; fails
when `category_id` names no category. -/
def insertTodo (now : String) (title : String) (category_id : Option Int)
    (scheduled_date color recurring_pattern : Option String) (st : Store) :
    Except String (Int × Store) :=
  if (match category_id with
      | some cid => categoryExists st cid
      | none => true) then
    let newId := nextId (st.todos.map (fun t => t.id)) st.seq_todos
    let row : Todo :=
      { id := newId, title := title, completed := false, category_id := category_id,
        scheduled_date := scheduled_date.map numericAffinity, sort_order := 0, color := color,
        recurring_pattern := recurring_pattern, parent_id := none,
        created_at := now, updated_at := now }
    Except.ok (newId, { st with todos := st.todos ++ [row], seq_todos := newId })
  else
    Except.error "FOREIGN KEY constraint failed"

/-- Statement `INSERT INTO todo_migrations (todo_id, from_date, to_date) VALUES
(?, ?, ?)`: fails when `todo_id` names no todo. -/
def insertMigration (now : String) (todo_id : Int) (from_date to_date : Option String)
    (st : Store) : Except String Store :=
  if todoExists st todo_id then
    let newId := nextId (st.todo_migrations.map (fun m => m.id)) st.seq_todo_migrations
    let row : TodoMigration :=
      { id := newId, todo_id := todo_id, from_date := from_date.map numericAffinity,
        to_date := to_date.map numericAffinity, migrated_at := now }
    Except.ok { st with todo_migrations := st.todo_migrations ++ [row],
                        seq_todo_migrations := newId }
  else
    Except.error "FOREIGN KEY constraint failed"

/-- Statement `UPDATE todos SET scheduled_date = ? WHERE id = ?`, followed by the
`update_todos_updated_at` trigger on each updated row. -/
def updateScheduledDate (now : String) (date : String) (todo_id : Int) (st : Store) :
    Except String Store :=
  Except.ok { st with todos := st.todos.map (fun t =>
    if t.id = todo_id then
      { t with scheduled_date := some (numericAffinity date), updated_at := now }
    else t) }

/-- The `WHERE` clause shared by both migration passes:
`completed = false AND scheduled_date IS NOT NULL AND scheduled_date < ?`. -/
def isPast (env : Engine) (today : String) (t : Todo) : Bool :=
  !t.completed &&
    (match t.scheduled_date with
     | some v => sqlLt env v (numericAffinity today)
     | none => false)

/-- Result of `rows.Scan(&todoID, &title, &oldDate)` on a row of `todos`, for the
rows the `WHERE` clause of `MigratePastTodos` selects. -/
def pastRow (env : Engine) (today : String) (t : Todo) : Option (Int × String × String) :=
  if isPast env today t then
    match t.scheduled_date with
    | some v => some (t.id, t.title, env.scanDate v)
    | none => none
  else none

/-- Statement `SELECT id, title, scheduled_date FROM todos WHERE ...` of
`MigratePastTodos`: the selected rows as scanned, in rowid order. -/
def selectPastTodos (env : Engine) (today : String) (st : Store) :
    List (Int × String × String) :=
  st.todos.filterMap (pastRow env today)

/-- Statement `UPDATE todos SET scheduled_date = ? WHERE completed = false AND
scheduled_date IS NOT NULL AND scheduled_date < ?` of `runInitialMigration`,
followed by the `update_todos_updated_at` trigger on each updated row. -/
def updatePastTodos (env : Engine) (now : String) (today : String) (st : Store) :
    Except String Store :=
  Except.ok { st with todos := st.todos.map (fun t =>
    if isPast env today t then
      { t with scheduled_date := some (numericAffinity today), updated_at := now }
    else t) }

/-- Statement `SELECT COUNT(*) FROM todos WHERE ...` of `runInitialMigration`. -/
def countPastTodos (env : Engine) (today : String) (st : Store) : Nat :=
  (st.todos.filter (isPast env today)).length

/-- One `column = ?` item of the `SET` clause `UpdateTodo` builds, with its
bound argument. -/
inductive TodoSet where
  | title (v : String)
  | completed (v : Bool)
  | category_id (v : Int)
  | scheduled_date (v : Option String)
  | sort_order (v : Int)
  | color (v : Option String)
deriving DecidableEq, Repr

/-- Assign one `SET` item to a row; `scheduled_date` is kept under the
affinity of its column. -/
def TodoSet.apply (t : Todo) : TodoSet → Todo
  | TodoSet.title v => { t with title := v }
  | TodoSet.completed v => { t with completed := v }
  | TodoSet.category_id v => { t with category_id := some v }
  | TodoSet.scheduled_date v => { t with scheduled_date := v.map numericAffinity }
  | TodoSet.sort_order v => { t with sort_order := v }
  | TodoSet.color v => { t with color := v }

/-- Whether a `SET` item writes a `category_id` that names no category. -/
def TodoSet.breaksForeignKey (st : Store) : TodoSet → Bool
  | TodoSet.category_id v => !categoryExists st v
  | _ => false

/-- Statement `UPDATE todos SET <sets> WHERE id = ?`, followed by the
`update_todos_updated_at` trigger on each updated row: fails when a row is
updated and its new `category_id` names no category. -/
def updateTodo (now : String) (sets : List TodoSet) (todo_id : Int) (st : Store) :
    Except String Store :=
  if todoExists st todo_id && sets.any (TodoSet.breaksForeignKey st) then
    Except.error "FOREIGN KEY constraint failed"
  else
    Except.ok { st with todos := st.todos.map (fun t =>
      if t.id = todo_id then { sets.foldl TodoSet.apply t with updated_at := now } else t) }

/-- Statement `DELETE FROM todos WHERE id = ?` with the schema's foreign-key
actions: `parent_id` of the children is set to `NULL` (and the update trigger
fires on them), the todo's rows of `todo_migrations` are deleted. -/
def deleteTodo (now : String) (todo_id : Int) (st : Store) : Except String Store :=
  if todoExists st todo_id then
    Except.ok { st with
      todos := (st.todos.filter (fun t => t.id != todo_id)).map (fun t =>
        if t.parent_id = some todo_id then { t with parent_id := none, updated_at := now }
        else t),
      todo_migrations := st.todo_migrations.filter (fun m => m.todo_id != todo_id) }
  else
    Except.ok st

/-- Statement `INSERT INTO categories (name, color) VALUES (?, ?)`: fails when the
name is taken (`name TEXT NOT NULL UNIQUE`). -/
def insertCategory (now : String) (name color : String) (st : Store) :
    Except String (Int × Store) :=
  if st.categories.any (fun c => c.name == name) then
    Except.error "UNIQUE constraint failed: categories.name"
  else
    let newId := nextId (st.categories.map (fun c => c.id)) st.seq_categories
    let row : Category :=
      { id := newId, name := name, color := color, sort_order := 0,
        created_at := now, updated_at := now }
    Except.ok (newId, { st with categories := st.categories ++ [row], seq_categories := newId })

/-- Statement `SELECT COUNT(*) FROM todos WHERE category_id = ?`. -/
def countTodosInCategory (category_id : Int) (st : Store) : Nat :=
  (st.todos.filter (fun t => t.category_id == some category_id)).length

/-- Statement `DELETE FROM categories WHERE id = ?` with the schema's foreign-key
action: `category_id` of the referencing todos is set to `NULL` (and the update
trigger fires on them). -/
def deleteCategory (now : String) (category_id : Int) (st : Store) : Except String Store :=
  if categoryExists st category_id then
    Except.ok { st with
      categories := st.categories.filter (fun c => c.id != category_id),
      todos := st.todos.map (fun t =>
        if t.category_id = some category_id then
          { t with category_id := none, updated_at := now }
        else t) }
  else
    Except.ok st

/-! ## The read queries -/

/-- Insert a row into a list ordered by `le`, after the rows that come
strictly before it and before every row it may precede. -/
def orderedInsert {α : Type} (le : α → α → Bool) (a : α) : List α → List α
  | [] => [a]
  | b :: l => if le a b then a :: b :: l else b :: orderedInsert le a l

/-- The rows in the order an `ORDER BY` asks for (`le a b`: the sort keys put
`a` no later than `b`); rows with equal keys keep their rowid order. -/
def orderBy {α : Type} (le : α → α → Bool) : List α → List α
  | [] => []
  | a :: l => orderedInsert le a (orderBy le l)

/-- The rows `todos t LEFT JOIN categories c ON t.category_id = c.id` yields
for one todo: one per matching category, or one without category. -/
def joinCategories (st : Store) (t : Todo) : List (Todo × Option Category) :=
  match st.categories.filter (fun c => t.category_id == some c.id) with
  | [] => [(t, none)]
  | c :: cs => (c :: cs).map (fun c => (t, some c))

/-- The rows of `FROM todos t LEFT JOIN categories c ON t.category_id = c.id`. -/
def leftJoinCategories (st : Store) : List (Todo × Option Category) :=
  st.todos.flatMap (joinCategories st)

/-- Result of `rows.Scan` into a `models.Todo` and the two `sql.NullString` of
the category: `scheduled_date` comes as the driver and `Scan` render it, a
`NULL` category column leaves the field empty. -/
def scanTodo (env : Engine) (r : Todo × Option Category) : TodoView :=
  { ID := r.1.id,
    Title := r.1.title,
    Completed := r.1.completed,
    CategoryID := r.1.category_id,
    CategoryName :=
      match r.2 with
      | some c => c.name
      | none => "",
    CategoryColor :=
      match r.2 with
      | some c => c.color
      | none => "",
    ScheduledDate := r.1.scheduled_date.map env.scanDate,
    SortOrder := r.1.sort_order,
    Color := r.1.color,
    RecurringPattern := r.1.recurring_pattern,
    ParentID := r.1.parent_id,
    CreatedAt := r.1.created_at,
    UpdatedAt := r.1.updated_at }

/-- The `WHERE` clause `t.scheduled_date = ?` of `getTodosForDate`. -/
def hasDate (env : Engine) (date : String) (t : Todo) : Bool :=
  match t.scheduled_date with
  | some v => sqlEq env v (numericAffinity date)
  | none => false

/-- Sort keys `t.sort_order ASC, t.created_at ASC`. -/
def bySortOrderCreatedAt (a b : Todo × Option Category) : Bool :=
  decide (a.1.sort_order < b.1.sort_order) ||
    (a.1.sort_order == b.1.sort_order && !textLt b.1.created_at a.1.created_at)

/-- SQL `a < b` on a nullable integer column under `ORDER BY ... ASC`: `NULL`
sorts before every value. -/
def nullableLt : Option Int → Option Int → Bool
  | none, none => false
  | none, some _ => true
  | some _, none => false
  | some x, some y => decide (x < y)

/-- Sort keys `t.category_id ASC, t.sort_order ASC, t.created_at ASC`. -/
def byCategorySortOrderCreatedAt (a b : Todo × Option Category) : Bool :=
  nullableLt a.1.category_id b.1.category_id ||
    (a.1.category_id == b.1.category_id && bySortOrderCreatedAt a b)

/-- Sort keys `sort_order ASC, name ASC`. -/
def bySortOrderName (a b : Category) : Bool :=
  decide (a.sort_order < b.sort_order) ||
    (a.sort_order == b.sort_order && !textLt b.name a.name)

/-- Function `Handler.getTodosForDate`: `... WHERE t.scheduled_date = ? ORDER BY
t.sort_order ASC, t.created_at ASC`, each row scanned into a `models.Todo`. -/
def getTodosForDate (env : Engine) (date : String) (st : Store) : List TodoView :=
  (orderBy bySortOrderCreatedAt
    ((leftJoinCategories st).filter (fun r => hasDate env date r.1))).map (scanTodo env)

/-- Function `Handler.getSomedayTodos`: `... WHERE t.scheduled_date IS NULL ORDER
BY t.category_id ASC, t.sort_order ASC, t.created_at ASC`. -/
def getSomedayTodos (env : Engine) (st : Store) : List TodoView :=
  (orderBy byCategorySortOrderCreatedAt
    ((leftJoinCategories st).filter (fun r => r.1.scheduled_date == none))).map (scanTodo env)

/-- Function `Handler.getCategories`: `SELECT ... FROM categories ORDER BY
sort_order ASC, name ASC`. -/
def getCategories (st : Store) : List Category :=
  orderBy bySortOrderName st.categories

/-! ## Times (`time.Time` as the handlers use it) -/

/-- Seconds from the zero of the unsigned 64-bit count in which package `time`
computes dates (its absolute epoch) to 1970-01-01 00:00:00:
`unixToInternal + internalToAbsolute`. -/
def unixToAbsolute : Int := 9223372028715321600

/-- A time after an overflowing operation of package `time`: the seconds since
the absolute epoch are taken modulo 2^64. -/
def wrapAbs (x : Int) : Int :=
  (x + unixToAbsolute) % 18446744073709551616 - unixToAbsolute

/-- Function `t.AddDate(0, 0, days)`: the same clock time `days` days on, the
day count and the seconds computed in unsigned 64-bit arithmetic. -/
def AddDate (t : Int) (days : Int) : Int :=
  wrapAbs (t + days * 86400)

/-- The day a time falls on, counted from 1970-01-01. -/
def unixDay (t : Int) : Int :=
  t / 86400

/-- The civil date (year, month, day) of the day `z` days after 1970-01-01 in
the proleptic Gregorian calendar, the calendar of `time.Time`. -/
def civilFromDays (z : Int) : Int × Int × Int :=
  let z0 := z + 719468
  let era := z0 / 146097
  let doe := z0 % 146097
  let yoe := (doe - doe / 1460 + doe / 36524 - doe / 146096) / 365
  let doy := doe - (365 * yoe + yoe / 4 - yoe / 100)
  let mp := (5 * doy + 2) / 153
  let d := doy - (153 * mp + 2) / 5 + 1
  let m := if mp < 10 then mp + 3 else mp - 9
  (if m ≤ 2 then yoe + era * 400 + 1 else yoe + era * 400, m, d)

/-- Decimal digits of `n`, padded with zeros on the left to `width`. -/
def zeroPad (width : Nat) (n : Nat) : String :=
  String.mk (List.replicate (width - (toString n).length) '0') ++ toString n

/-- Function `t.Format("2006-01-02")` of a `time.Time` on day `z`. -/
def formatDate (z : Int) : String :=
  let ymd := civilFromDays z
  (if ymd.1 < 0 then "-" else "") ++ zeroPad 4 ymd.1.natAbs ++ "-" ++
    zeroPad 2 ymd.2.1.natAbs ++ "-" ++ zeroPad 2 ymd.2.2.natAbs

/-- Function `t.Format("Monday")` of a `time.Time` on day `z`; 1970-01-01 was a
Thursday. -/
def formatWeekday (z : Int) : String :=
  ["Sunday", "Monday", "Tuesday", "Wednesday", "Thursday", "Friday", "Saturday"].getD
    ((z + 4) % 7).toNat ""

/-! ## Handlers -/

/-- One iteration of the `for rows.Next()` loop of `MigratePastTodos`: log the
migration, move the todo, count it; a failed statement skips to the next row.
Both statements are issued while the rows of the `SELECT` are open. -/
def migrateRow (today now : String) (acc : Store × Nat) (row : Int × String × String) :
    Store × Nat :=
  match execWhileRowsOpen (insertMigration now row.1 (some row.2.2) (some today)) acc.1 with
  | Except.error _ => acc
  | Except.ok st1 =>
    match execWhileRowsOpen (updateScheduledDate now today row.1) st1 with
    | Except.error _ => (st1, acc.2)
    | Except.ok st2 => (st2, acc.2 + 1)

/-- Handler `Handler.MigratePastTodos`, with
`today = time.Now().Format("2006-01-02")`. -/
def MigratePastTodos (env : Engine) (today now : String) (st : Store) : APIResponse × Store :=
  let res := (selectPastTodos env today st).foldl (migrateRow today now) (st, 0)
  (okResponse StatusOK ("Migrated " ++ toString res.2 ++ " todos to today")
     (ResponseData.migrated_count res.2), res.1)

/-- Function `runInitialMigration` of `main.go`, with
`today = time.Now().Format("2006-01-02")`: the store it leaves. The count is
read with `QueryRow(...).Scan`, which closes its rows before the `UPDATE`. -/
def runInitialMigration (env : Engine) (today now : String) (st : Store) : Store :=
  let count := countPastTodos env today st
  if count > 0 then
    match updatePastTodos env now today st with
    | Except.error _ => st
    | Except.ok st1 => st1
  else st

/-- The text gin's validator reports for a field tagged `binding:"required"`
that holds its zero value. -/
def requiredError (type field : String) : String :=
  "Key: '" ++ type ++ "." ++ field ++ "' Error:Field validation for '" ++ field ++
    "' failed on the 'required' tag"

/-- Handler `Handler.CreateTodo`: `ShouldBindJSON` rejects an empty `title`
(`binding:"required"`), then the row is inserted. -/
def CreateTodo (now : String) (req : CreateTodoRequest) (st : Store) : APIResponse × Store :=
  if req.Title = "" then
    (errResponse StatusBadRequest
      ("Invalid request body: " ++ requiredError "CreateTodoRequest" "Title"), st)
  else
    match insertTodo now req.Title req.CategoryID (nullString req.ScheduledDate)
        (nullString req.Color) (nullString req.RecurringPattern) st with
    | Except.error e =>
      (errResponse StatusInternalServerError ("Failed to create todo: " ++ e), st)
    | Except.ok (todoID, st1) =>
      (okResponse StatusCreated "Todo created successfully" (ResponseData.id todoID), st1)

/-- The `setParts`/`args` lists `UpdateTodo` builds from the supplied fields. -/
def setParts (req : UpdateTodoRequest) : List TodoSet :=
  (match req.Title with
   | some v => [TodoSet.title v]
   | none => []) ++
  (match req.Completed with
   | some v => [TodoSet.completed v]
   | none => []) ++
  (match req.CategoryID with
   | some v => [TodoSet.category_id v]
   | none => []) ++
  (match req.ScheduledDate with
   | some v => [TodoSet.scheduled_date (nullString v)]
   | none => []) ++
  (match req.SortOrder with
   | some v => [TodoSet.sort_order v]
   | none => []) ++
  (match req.Color with
   | some v => [TodoSet.color (nullString v)]
   | none => [])

/-- Handler `Handler.UpdateTodo`, after the path parameter parsed as `todoID`. -/
def UpdateTodo (now : String) (todoID : Int) (req : UpdateTodoRequest) (st : Store) :
    APIResponse × Store :=
  if (setParts req).length = 0 then
    (errResponse StatusBadRequest "No fields to update", st)
  else
    match updateTodo now (setParts req) todoID st with
    | Except.error e =>
      (errResponse StatusInternalServerError ("Failed to update todo: " ++ e), st)
    | Except.ok st1 =>
      (okResponse StatusOK "Todo updated successfully" ResponseData.none, st1)

/-- Handler `Handler.DeleteTodo`, after the path parameter parsed as `todoID`. -/
def DeleteTodo (now : String) (todoID : Int) (st : Store) : APIResponse × Store :=
  match deleteTodo now todoID st with
  | Except.error e =>
    (errResponse StatusInternalServerError ("Failed to delete todo: " ++ e), st)
  | Except.ok st1 =>
    (okResponse StatusOK "Todo deleted successfully" ResponseData.none, st1)

/-- Handler `Handler.CreateCategory`: `ShouldBindJSON` rejects an empty `name`
(`binding:"required"`), an empty color becomes the default gray, then the row
is inserted. -/
def CreateCategory (now : String) (req : CreateCategoryRequest) (st : Store) :
    APIResponse × Store :=
  if req.Name = "" then
    (errResponse StatusBadRequest
      ("Invalid request body: " ++ requiredError "CreateCategoryRequest" "Name"), st)
  else
    let color := if req.Color = "" then "#6b7280" else req.Color
    match insertCategory now req.Name color st with
    | Except.error e =>
      (errResponse StatusInternalServerError ("Failed to create category: " ++ e), st)
    | Except.ok (categoryID, st1) =>
      (okResponse StatusCreated "Category created successfully" (ResponseData.id categoryID),
        st1)

/-- Handler `Handler.DeleteCategory`, after the path parameter parsed as
`categoryID`. -/
def DeleteCategory (now : String) (categoryID : Int) (st : Store) : APIResponse × Store :=
  let count := countTodosInCategory categoryID st
  if count > 0 then
    (errResponse StatusBadRequest
      ("Cannot delete category: " ++ toString count ++ " todos are using this category"), st)
  else
    match deleteCategory now categoryID st with
    | Except.error e =>
      (errResponse StatusInternalServerError ("Failed to delete category: " ++ e), st)
    | Except.ok st1 =>
      (okResponse StatusOK "Category deleted successfully" ResponseData.none, st1)

/-- Handler `Handler.GetDashboard`. `weekOffset` is the result of
`strconv.Atoi` on the query parameter, a Go `int` (`none` when it fails, which
the handler replaces by 0); `now1` and `now2` are the two `time.Now()`
readings, the first for `today`, the second for `startDate`. -/
def GetDashboard (env : Engine) (now1 now2 : Int) (weekOffset : Option Int) (st : Store) :
    APIResponse :=
  let weekOffset :=
    match weekOffset with
    | some n => n
    | none => 0
  let today := formatDate (unixDay now1)
  let startDate := AddDate now2 weekOffset
  let weeklyTodos := (List.range 7).map (fun (i : Nat) =>
    let date := AddDate startDate (i : Int)
    let dayStr := formatDate (unixDay date)
    let dayName := formatWeekday (unixDay date)
    ({ Date := dayStr, Day := dayName, Todos := getTodosForDate env dayStr st } : WeeklyTodos))
  okResponse StatusOK ""
    (ResponseData.dashboard
      { WeeklyTodos := weeklyTodos,
        SomedayTodos := getSomedayTodos env st,
        Categories := getCategories st,
        TodayDate := today,
        WeekStartDate := formatDate (unixDay startDate) })

/-! ## The Migration Engine as the spec words it -/

/-- One move of the Migration Engine of spec section 4.2: append the record
`{todo_id, from_date: old scheduled_date, to_date: today}`, then set
`scheduled_date = today`. -/
def specMigrateTodo (today now : String) (st : Store) (t : Todo) : Store :=
  { st with
    todo_migrations := st.todo_migrations ++
      [{ id := nextId (st.todo_migrations.map (fun m => m.id)) st.seq_todo_migrations,
         todo_id := t.id, from_date := t.scheduled_date,
         to_date := some (numericAffinity today), migrated_at := now }],
    seq_todo_migrations :=
      nextId (st.todo_migrations.map (fun m => m.id)) st.seq_todo_migrations,
    todos := st.todos.map (fun u =>
      if u.id = t.id then
        { u with scheduled_date := some (numericAffinity today), updated_at := now }
      else u) }

/-- The Migration Engine of spec section 4.2, not the code of the handler:
select every todo with `completed = false` and a `scheduled_date` strictly
before `today`, move each of them, and report their number. It is what the
startup pass is compared with. -/
def specMigrationEngine (env : Engine) (today now : String) (st : Store) : Nat × Store :=
  ((st.todos.filter (isPast env today)).length,
    (st.todos.filter (isPast env today)).foldl (specMigrateTodo today now) st)

/-! ## Runs of the service -/

/-- One state-changing call the service can receive, with the clock readings
it makes. -/
inductive Op where
  | createTodo (now : String) (req : CreateTodoRequest)
  | updateTodo (now : String) (todoID : Int) (req : UpdateTodoRequest)
  | deleteTodo (now : String) (todoID : Int)
  | migratePastTodos (today now : String)
  | initialMigration (today now : String)
  | createCategory (now : String) (req : CreateCategoryRequest)
  | deleteCategory (now : String) (categoryID : Int)
deriving DecidableEq, Repr

/-- The store after one call. -/
def Op.step (env : Engine) (st : Store) : Op → Store
  | Op.createTodo now req => (CreateTodo now req st).2
  | Op.updateTodo now todoID req => (UpdateTodo now todoID req st).2
  | Op.deleteTodo now todoID => (DeleteTodo now todoID st).2
  | Op.migratePastTodos today now => (MigratePastTodos env today now st).2
  | Op.initialMigration today now => runInitialMigration env today now st
  | Op.createCategory now req => (CreateCategory now req st).2
  | Op.deleteCategory now categoryID => (DeleteCategory now categoryID st).2

/-- The store after a sequence of calls, first to last. -/
def run (env : Engine) (ops : List Op) (st : Store) : Store :=
  ops.foldl (Op.step env) st

/-! ## Definitions used to state the properties -/

/-- The strings a call can write to `scheduled_date`: the non-empty date of a
create or update request, the reference date of the startup pass. The
on-demand pass writes nothing. -/
def Op.dates : Op → List String
  | Op.createTodo _ req => (nullString req.ScheduledDate).toList
  | Op.updateTodo _ _ req =>
    match req.ScheduledDate with
    | some v => (nullString v).toList
    | none => []
  | Op.deleteTodo _ _ => []
  | Op.migratePastTodos _ _ => []
  | Op.initialMigration today _ => [today]
  | Op.createCategory _ _ => []
  | Op.deleteCategory _ _ => []

/-- The day-view of day `z`: its date, its weekday name and the todos
`getTodosForDate` returns for that date. -/
def dayView (env : Engine) (z : Int) (st : Store) : WeeklyTodos :=
  { Date := formatDate z, Day := formatWeekday z,
    Todos := getTodosForDate env (formatDate z) st }

/-! ## Calendar dates -/

/-- Leap years of the Gregorian calendar. -/
def isLeapYear (y : Int) : Bool :=
  decide ((y % 4 = 0 ∧ y % 100 ≠ 0) ∨ y % 400 = 0)

/-- Number of days of month `m` (1 to 12) in year `y`. -/
def daysInMonth (y m : Int) : Int :=
  if m = 2 then (if isLeapYear y then 29 else 28)
  else if m = 4 ∨ m = 6 ∨ m = 9 ∨ m = 11 then 30
  else 31

/-- The day after a civil date (year, month, day) in the Gregorian calendar:
the next day of the month, else the first of the next month, else 1 January
of the next year. -/
def nextCivilDay (ymd : Int × Int × Int) : Int × Int × Int :=
  if ymd.2.2 < daysInMonth ymd.1 ymd.2.1 then (ymd.1, ymd.2.1, ymd.2.2 + 1)
  else if ymd.2.1 < 12 then (ymd.1, ymd.2.1 + 1, 1)
  else (ymd.1 + 1, 1, 1)

/-- The name of the weekday after the weekday of the given name. -/
def nextWeekday (day : String) : String :=
  if day = "Sunday" then "Monday"
  else if day = "Monday" then "Tuesday"
  else if day = "Tuesday" then "Wednesday"
  else if day = "Wednesday" then "Thursday"
  else if day = "Thursday" then "Friday"
  else if day = "Friday" then "Saturday"
  else if day = "Saturday" then "Sunday"
  else ""

/-- The number a run of decimal digits writes; `none` when a character is not
a digit. -/
def digitsValue (cs : List Char) : Option Nat :=
  cs.foldl (fun acc c =>
    match acc with
    | some n => if c.isDigit then some (10 * n + (c.toNat - 48)) else none
    | none => none) (some 0)

/-- A calendar date written in the layout `2006-01-02`, the one the handlers
format `today` and the dashboard days with: four digits, `-`, a month 01 to 12,
`-`, a day of that month. -/
def isCalendarDate (s : String) : Bool :=
  match s.toList with
  | [y1, y2, y3, y4, s1, m1, m2, s2, d1, d2] =>
    s1 == '-' && s2 == '-' &&
      (match digitsValue [y1, y2, y3, y4], digitsValue [m1, m2], digitsValue [d1, d2] with
       | some y, some m, some d =>
         decide (1 ≤ m) && decide (m ≤ 12) && decide (1 ≤ d) &&
           decide ((d : Int) ≤ daysInMonth y m)
       | _, _, _ => false)
  | _ => false

/-! ## The calendar conversion in parts

The steps of `civilFromDays`, named so that they can be reasoned about one at
a time. An era is 400 years from 1 March of a year divisible by 400; the years
of an era are counted from 0 and start on 1 March. -/

/-- The numerator of the year of the era in `civilFromDays`: the day of the
era with the leap days taken out. -/
def yearNumerator (doe : Int) : Int :=
  doe - doe / 1460 + doe / 36524 - doe / 146096

/-- The days of an era that lie before its year `y`. -/
def daysBeforeYear (y : Int) : Int :=
  365 * y + y / 4 - y / 100

/-- Month and day of the day `doy` of a year that starts on 1 March. -/
def monthDay (doy : Int) : Int × Int :=
  let mp := (5 * doy + 2) / 153
  (if mp < 10 then mp + 3 else mp - 9, doy - (153 * mp + 2) / 5 + 1)

/-- The civil date of day `doy` (from 1 March) of year `y` of era `era`. -/
def civilOfYearDay (era y doy : Int) : Int × Int × Int :=
  (if (monthDay doy).1 ≤ 2 then y + era * 400 + 1 else y + era * 400,
    (monthDay doy).1, (monthDay doy).2)

/-! ## Examples -/

/-- An engine for the examples: it renders a stored text the way the driver
renders a date without time of day; the examples hold no number kept as a
literal, so its comparisons of such numbers are never consulted. -/
def sampleEngine : Engine :=
  { scanDate := fun v =>
      match v with
      | SqlValue.text s => s ++ "T00:00:00Z"
      | SqlValue.integer n => toString n
      | SqlValue.numeric l => l,
    numberLt := fun _ _ => false,
    numberEq := fun _ _ => false }

/-- A store for examples: the default categories and three todos, one
incomplete and dated before 2024-06-10, one dated 2024-06-10, one completed. -/
def sampleStore : Store :=
  { initialStore "2024-06-01 08:00:00" with
    todos :=
      [ { id := 1, title := "Ship release", completed := false, category_id := some 1,
          scheduled_date := some (SqlValue.text "2024-06-09"), sort_order := 0, color := none,
          recurring_pattern := none, parent_id := none,
          created_at := "2024-06-08 09:00:00", updated_at := "2024-06-08 09:00:00" },
        { id := 2, title := "Buy milk", completed := false, category_id := some 2,
          scheduled_date := some (SqlValue.text "2024-06-10"), sort_order := 0, color := none,
          recurring_pattern := none, parent_id := none,
          created_at := "2024-06-08 09:05:00", updated_at := "2024-06-08 09:05:00" },
        { id := 3, title := "Call home", completed := true, category_id := none,
          scheduled_date := some (SqlValue.text "2024-06-07"), sort_order := 0, color := none,
          recurring_pattern := none, parent_id := some 1,
          created_at := "2024-06-07 10:00:00", updated_at := "2024-06-07 18:00:00" } ],
    seq_todos := 3 }

/-- A store for examples of the read queries: four todos on 2024-06-10 with
mixed `sort_order` and creation times, one in a category, and one undated. -/
def daySampleStore : Store :=
  { initialStore "2024-06-01 08:00:00" with
    todos :=
      [ { id := 1, title := "Water plants", completed := false, category_id := none,
          scheduled_date := some (SqlValue.text "2024-06-10"), sort_order := 2, color := none,
          recurring_pattern := none, parent_id := none,
          created_at := "2024-06-08 09:00:00", updated_at := "2024-06-08 09:00:00" },
        { id := 2, title := "Buy milk", completed := false, category_id := some 2,
          scheduled_date := some (SqlValue.text "2024-06-10"), sort_order := 1, color := none,
          recurring_pattern := none, parent_id := none,
          created_at := "2024-06-08 09:05:00", updated_at := "2024-06-08 09:05:00" },
        { id := 3, title := "Read novel", completed := false, category_id := some 4,
          scheduled_date := none, sort_order := 0, color := none,
          recurring_pattern := none, parent_id := none,
          created_at := "2024-06-08 09:06:00", updated_at := "2024-06-08 09:06:00" },
        { id := 4, title := "Pay rent", completed := true, category_id := none,
          scheduled_date := some (SqlValue.text "2024-06-10"), sort_order := 1,
          color := some "#ff0000", recurring_pattern := none, parent_id := none,
          created_at := "2024-06-07 12:00:00", updated_at := "2024-06-09 12:00:00" },
        { id := 5, title := "Plan trip", completed := false, category_id := none,
          scheduled_date := some (SqlValue.text "2024-06-11"), sort_order := 0, color := none,
          recurring_pattern := none, parent_id := none,
          created_at := "2024-06-08 10:00:00", updated_at := "2024-06-08 10:00:00" } ],
    seq_todos := 5 }

/-! ## Lemmas and properties -/

theorem textLtChars_irrefl (l : List Char) : textLtChars l l = false := by
  induction l with
  | nil => rfl
  | cons a l ih => simp [textLtChars, ih]

theorem textLt_irrefl (s : String) : textLt s s = false :=
  textLtChars_irrefl s.toList

/-! ### The on-demand migration pass -/

theorem execWhileRowsOpen_eq (stmt : Store → Except String Store) (st : Store) :
    execWhileRowsOpen stmt st = Except.error "database is locked" := by
  unfold execWhileRowsOpen
  cases stmt st <;> rfl

theorem migrateRow_eq (today now : String) (acc : Store × Nat) (row : Int × String × String) :
    migrateRow today now acc row = acc := by
  unfold migrateRow
  rw [execWhileRowsOpen_eq]

theorem foldl_migrateRow (today now : String) (rows : List (Int × String × String))
    (acc : Store × Nat) : rows.foldl (migrateRow today now) acc = acc := by
  induction rows generalizing acc with
  | nil => rfl
  | cons r rows ih => rw [List.foldl_cons, migrateRow_eq, ih]

/-- Every write of the loop is refused while the rows of its `SELECT` are
open: the handler answers a count of 0 and leaves the store as it was. -/
theorem MigratePastTodos_locked (env : Engine) (today now : String) (st : Store) :
    MigratePastTodos env today now st =
      (okResponse StatusOK "Migrated 0 todos to today" (ResponseData.migrated_count 0), st) := by
  unfold MigratePastTodos
  simp only [foldl_migrateRow]
  rfl

/-- C1: on `sampleStore` with `today` 2024-06-10 the `SELECT` of
`MigratePastTodos` finds one todo, incomplete and dated 2024-06-09, but both
writes of the loop are refused while its rows are open: the handler answers
"Migrated 0 todos to today", todo 1 is still dated 2024-06-09 and the
migration log is still empty. -/
theorem MigratePastTodos_moves_nothing :
    countPastTodos sampleEngine "2024-06-10" sampleStore = 1 ∧
    selectPastTodos sampleEngine "2024-06-10" sampleStore
      = [(1, "Ship release", "2024-06-09T00:00:00Z")] ∧
    (MigratePastTodos sampleEngine "2024-06-10" "2024-06-10 07:00:00" sampleStore).1
      = okResponse StatusOK "Migrated 0 todos to today" (ResponseData.migrated_count 0) ∧
    (∃ t ∈ (MigratePastTodos sampleEngine "2024-06-10" "2024-06-10 07:00:00" sampleStore).2.todos,
      t.id = 1 ∧ t.completed = false ∧
        t.scheduled_date = some (SqlValue.text "2024-06-09")) ∧
    (MigratePastTodos sampleEngine "2024-06-10" "2024-06-10 07:00:00"
      sampleStore).2.todo_migrations = [] ∧
    MigratePastTodos sampleEngine "2024-06-10" "2024-06-10 07:00:00" sampleStore
      = (okResponse StatusOK "Migrated 0 todos to today" (ResponseData.migrated_count 0),
          sampleStore) := by
  decide

/-- C2: a second run of `MigratePastTodos` with the same `today` reports a
migrated count of 0 and leaves the whole store, todos and migration log
included, as the first run left it. -/
theorem MigratePastTodos_idempotent (env : Engine) (today now now2 : String) (st : Store) :
    MigratePastTodos env today now2 (MigratePastTodos env today now st).2 =
      (okResponse StatusOK "Migrated 0 todos to today" (ResponseData.migrated_count 0),
        (MigratePastTodos env today now st).2) :=
  MigratePastTodos_locked env today now2 _

/-- C3: `MigratePastTodos` keeps every todo that is completed, undated, or
dated `today` or later exactly as it was and appends no migration record for
it; a todo dated exactly `today` is such a todo; and when no todo is incomplete
and dated before `today`, the run answers count 0 and leaves the store as it
was. -/
theorem MigratePastTodos_frame (env : Engine) (today now : String) (st : Store)
    (hpk : (st.todos.map (fun t => t.id)).Nodup) :
    (∃ new, (MigratePastTodos env today now st).2.todo_migrations = st.todo_migrations ++ new ∧
      ∀ t ∈ st.todos,
        (t.completed = true ∨ t.scheduled_date = none ∨
          ∃ v, t.scheduled_date = some v ∧ sqlLt env v (numericAffinity today) = false) →
        t ∈ (MigratePastTodos env today now st).2.todos ∧
        (∀ t2 ∈ (MigratePastTodos env today now st).2.todos, t2.id = t.id → t2 = t) ∧
        ∀ m ∈ new, m.todo_id ≠ t.id) ∧
    (∀ t ∈ st.todos, t.scheduled_date = some (numericAffinity today) →
      ∀ t2 ∈ (MigratePastTodos env today now st).2.todos, t2.id = t.id → t2 = t) ∧
    ((∀ t ∈ st.todos, t.completed = true ∨ t.scheduled_date = none ∨
          ∃ v, t.scheduled_date = some v ∧ sqlLt env v (numericAffinity today) = false) →
      MigratePastTodos env today now st =
        (okResponse StatusOK "Migrated 0 todos to today" (ResponseData.migrated_count 0),
          st)) := by
  have hinj := List.inj_on_of_nodup_map hpk
  rw [MigratePastTodos_locked]
  refine ⟨⟨[], (List.append_nil _).symm, ?_⟩, ?_, fun _ => rfl⟩
  · intro t ht _
    exact ⟨ht, fun t2 ht2 hid => hinj ht2 ht hid, fun m hm => by cases hm⟩
  · intro t ht _ t2 ht2 hid
    exact hinj ht2 ht hid

/-- Witness of C3 on `sampleStore`: the todo dated 2024-06-10 and the completed
one are still there after the run of 2024-06-10. -/
theorem MigratePastTodos_frame_witness :
    (sampleStore.todos.map (fun t => t.id)).Nodup ∧
    ∃ t ∈ (MigratePastTodos sampleEngine "2024-06-10" "2024-06-10 07:00:00" sampleStore).2.todos,
      t.id = 2 ∧ t.scheduled_date = some (SqlValue.text "2024-06-10") ∧
        t.updated_at = "2024-06-08 09:05:00" := by
  have hpk : (sampleStore.todos.map (fun t => t.id)).Nodup := by decide
  obtain ⟨⟨new, _, h⟩, _, _⟩ :=
    MigratePastTodos_frame sampleEngine "2024-06-10" "2024-06-10 07:00:00" sampleStore hpk
  have h2 := h
    { id := 2, title := "Buy milk", completed := false, category_id := some 2,
      scheduled_date := some (SqlValue.text "2024-06-10"), sort_order := 0, color := none,
      recurring_pattern := none, parent_id := none,
      created_at := "2024-06-08 09:05:00", updated_at := "2024-06-08 09:05:00" }
    (by decide) (Or.inr (Or.inr ⟨SqlValue.text "2024-06-10", rfl, by decide⟩))
  exact ⟨hpk, _, h2.1, rfl, rfl, rfl⟩

/-! ### The startup pass -/

/-- The startup pass never writes to `todo_migrations`. -/
theorem runInitialMigration_todo_migrations (env : Engine) (today now : String) (st : Store) :
    (runInitialMigration env today now st).todo_migrations = st.todo_migrations := by
  unfold runInitialMigration
  simp only [updatePastTodos]
  split <;> rfl

/-- C4: on `sampleStore` with `today` 2024-06-10, `runInitialMigration` moves
the one past incomplete todo to `today` exactly as the Migration Engine of the
spec does, but leaves the migration log empty, where the engine appends the
record of the move from 2024-06-09 to 2024-06-10; the on-demand handler, run
on the same state, neither moves nor logs. -/
theorem runInitialMigration_logs_nothing :
    (runInitialMigration sampleEngine "2024-06-10" "2024-06-10 07:00:00" sampleStore).todos
      = (specMigrationEngine sampleEngine "2024-06-10" "2024-06-10 07:00:00"
          sampleStore).2.todos ∧
    countPastTodos sampleEngine "2024-06-10" sampleStore = 1 ∧
    (runInitialMigration sampleEngine "2024-06-10" "2024-06-10 07:00:00"
      sampleStore).todo_migrations = [] ∧
    (specMigrationEngine sampleEngine "2024-06-10" "2024-06-10 07:00:00"
      sampleStore).2.todo_migrations
      = [{ id := 1, todo_id := 1, from_date := some (SqlValue.text "2024-06-09"),
           to_date := some (SqlValue.text "2024-06-10"),
           migrated_at := "2024-06-10 07:00:00" }] ∧
    (∃ t ∈ (runInitialMigration sampleEngine "2024-06-10" "2024-06-10 07:00:00"
        sampleStore).todos,
      t.id = 1 ∧ t.scheduled_date = some (SqlValue.text "2024-06-10")) ∧
    (MigratePastTodos sampleEngine "2024-06-10" "2024-06-10 07:00:00" sampleStore).2
      = sampleStore := by
  decide

theorem countTodosInCategory_pos {categoryID : Int} {st : Store} :
    0 < countTodosInCategory categoryID st ↔
      ∃ t ∈ st.todos, t.category_id = some categoryID := by
  unfold countTodosInCategory
  rw [List.length_pos_iff_exists_mem]
  constructor
  · rintro ⟨t, ht⟩
    obtain ⟨h1, h2⟩ := List.mem_filter.mp ht
    exact ⟨t, h1, by simpa using h2⟩
  · rintro ⟨t, h1, h2⟩
    exact ⟨t, List.mem_filter.mpr ⟨h1, by simpa using h2⟩⟩

theorem DeleteCategory_of_unused (now : String) (categoryID : Int) (st : Store)
    (h : ∀ t ∈ st.todos, t.category_id ≠ some categoryID) :
    (DeleteCategory now categoryID st).1
        = okResponse StatusOK "Category deleted successfully" ResponseData.none ∧
    (DeleteCategory now categoryID st).2
        = { st with categories := st.categories.filter (fun c => c.id != categoryID) } := by
  have hcount : ¬ 0 < countTodosInCategory categoryID st := by
    rw [countTodosInCategory_pos]
    rintro ⟨t, ht, hc⟩
    exact h t ht hc
  have hmap : st.todos.map (fun t =>
      if t.category_id = some categoryID then
        { t with category_id := none, updated_at := now }
      else t) = st.todos := by
    conv_rhs => rw [← List.map_id st.todos]
    apply List.map_congr_left
    intro t ht
    rw [if_neg (h t ht)]
    rfl
  have hdel : deleteCategory now categoryID st
      = Except.ok { st with categories := st.categories.filter (fun c => c.id != categoryID) } := by
    unfold deleteCategory
    by_cases hex : categoryExists st categoryID = true
    · rw [if_pos hex, hmap]
    · rw [if_neg hex]
      have hf : st.categories.filter (fun c => c.id != categoryID) = st.categories := by
        rw [List.filter_eq_self]
        intro c hc
        simp only [categoryExists, List.any_eq_true, beq_iff_eq, not_exists, not_and] at hex
        simpa using hex c hc
      rw [hf]
  unfold DeleteCategory
  simp only [gt_iff_lt, hcount, if_false, hdel]
  exact ⟨trivial, trivial⟩

/-- C5: `DeleteCategory` is rejected exactly when some todo has this
`category_id`; then the error text carries the (positive) number of such todos
and the store is left as it was. When no todo references the id the call
succeeds, no category row with that id remains, and every other category row,
every todo and the migration log are unchanged. -/
theorem DeleteCategory_guard (now : String) (categoryID : Int) (st : Store) :
    ((DeleteCategory now categoryID st).1.success = false ↔
      ∃ t ∈ st.todos, t.category_id = some categoryID) ∧
    ((∃ t ∈ st.todos, t.category_id = some categoryID) →
      0 < countTodosInCategory categoryID st ∧
      DeleteCategory now categoryID st =
        (errResponse StatusBadRequest
          ("Cannot delete category: " ++ toString (countTodosInCategory categoryID st) ++
            " todos are using this category"), st)) ∧
    ((∀ t ∈ st.todos, t.category_id ≠ some categoryID) →
      (DeleteCategory now categoryID st).1
          = okResponse StatusOK "Category deleted successfully" ResponseData.none ∧
      (∀ c ∈ (DeleteCategory now categoryID st).2.categories, c.id ≠ categoryID) ∧
      (DeleteCategory now categoryID st).2.categories
          = st.categories.filter (fun c => c.id != categoryID) ∧
      (DeleteCategory now categoryID st).2.todos = st.todos ∧
      (DeleteCategory now categoryID st).2.todo_migrations = st.todo_migrations) := by
  have hused : (∃ t ∈ st.todos, t.category_id = some categoryID) →
      0 < countTodosInCategory categoryID st ∧
      DeleteCategory now categoryID st =
        (errResponse StatusBadRequest
          ("Cannot delete category: " ++ toString (countTodosInCategory categoryID st) ++
            " todos are using this category"), st) := by
    intro h
    have hpos := countTodosInCategory_pos.mpr h
    refine ⟨hpos, ?_⟩
    unfold DeleteCategory
    simp only [gt_iff_lt, hpos, if_true]
  refine ⟨?_, hused, ?_⟩
  · constructor
    · intro hfail
      by_contra hno
      have hall : ∀ t ∈ st.todos, t.category_id ≠ some categoryID :=
        fun t ht hc => hno ⟨t, ht, hc⟩
      rw [(DeleteCategory_of_unused now categoryID st hall).1] at hfail
      cases hfail
    · intro h
      rw [(hused h).2]
      rfl
  · intro hall
    obtain ⟨h1, h2⟩ := DeleteCategory_of_unused now categoryID st hall
    refine ⟨h1, ?_, ?_, ?_, ?_⟩
    · intro c hc
      rw [h2] at hc
      have := (List.mem_filter.mp hc).2
      simpa using this
    · rw [h2]
    · rw [h2]
    · rw [h2]

/-- The row the `SET` clause built from a request produces. -/
theorem foldl_setParts (req : UpdateTodoRequest) (t : Todo) :
    (setParts req).foldl TodoSet.apply t =
      { t with
        title := req.Title.getD t.title,
        completed := req.Completed.getD t.completed,
        category_id :=
          match req.CategoryID with
          | some v => some v
          | none => t.category_id,
        scheduled_date :=
          match req.ScheduledDate with
          | some v => (nullString v).map numericAffinity
          | none => t.scheduled_date,
        sort_order := req.SortOrder.getD t.sort_order,
        color :=
          match req.Color with
          | some v => nullString v
          | none => t.color } := by
  rcases req with ⟨_ | a, _ | b, _ | c, _ | d, _ | e, _ | f⟩ <;> rfl

/-- Handler `UpdateTodo` either fails and leaves the store, or succeeds with the
`UPDATE` applied to the rows with the given id. -/
theorem UpdateTodo_cases (now : String) (todoID : Int) (req : UpdateTodoRequest) (st : Store) :
    ((UpdateTodo now todoID req st).1.success = false ∧ (UpdateTodo now todoID req st).2 = st) ∨
    ((UpdateTodo now todoID req st).1
        = okResponse StatusOK "Todo updated successfully" ResponseData.none ∧
      (UpdateTodo now todoID req st).2 = { st with todos := st.todos.map (fun t =>
        if t.id = todoID then
          { (setParts req).foldl TodoSet.apply t with updated_at := now }
        else t) }) := by
  unfold UpdateTodo
  by_cases h0 : (setParts req).length = 0
  · rw [if_pos h0]
    exact Or.inl ⟨rfl, rfl⟩
  · rw [if_neg h0]
    unfold updateTodo
    by_cases hfk : (todoExists st todoID && (setParts req).any (TodoSet.breaksForeignKey st))
        = true
    · rw [if_pos hfk]
      exact Or.inl ⟨rfl, rfl⟩
    · rw [if_neg hfk]
      exact Or.inr ⟨rfl, rfl⟩

/-- C6: `UpdateTodo` leaves categories and the migration log alone and maps
the todo rows one to one: a row with another id is unchanged; in the row with
the given id every column whose request field is omitted keeps its value, as do
`id`, `recurring_pattern`, `parent_id` and `created_at`, while `updated_at`
keeps its value or becomes `now` (the schema's trigger); and when the call
succeeds every supplied field holds the supplied value (an empty
`scheduled_date` or `color` stored as `NULL`, a `scheduled_date` as its column
keeps it). -/
theorem UpdateTodo_partial (now : String) (todoID : Int) (req : UpdateTodoRequest)
    (st : Store) :
    (UpdateTodo now todoID req st).2.categories = st.categories ∧
    (UpdateTodo now todoID req st).2.todo_migrations = st.todo_migrations ∧
    List.Forall₂
      (fun t t2 =>
        t2.id = t.id ∧ t2.recurring_pattern = t.recurring_pattern ∧
        t2.parent_id = t.parent_id ∧ t2.created_at = t.created_at ∧
        (t2.updated_at = t.updated_at ∨ t2.updated_at = now) ∧
        (t.id ≠ todoID → t2 = t) ∧
        (req.Title = none → t2.title = t.title) ∧
        (req.Completed = none → t2.completed = t.completed) ∧
        (req.CategoryID = none → t2.category_id = t.category_id) ∧
        (req.ScheduledDate = none → t2.scheduled_date = t.scheduled_date) ∧
        (req.SortOrder = none → t2.sort_order = t.sort_order) ∧
        (req.Color = none → t2.color = t.color) ∧
        ((UpdateTodo now todoID req st).1.success = true → t.id = todoID →
          (∀ v, req.Title = some v → t2.title = v) ∧
          (∀ v, req.Completed = some v → t2.completed = v) ∧
          (∀ v, req.CategoryID = some v → t2.category_id = some v) ∧
          (∀ v, req.ScheduledDate = some v →
            t2.scheduled_date = (nullString v).map numericAffinity) ∧
          (∀ v, req.SortOrder = some v → t2.sort_order = v) ∧
          (∀ v, req.Color = some v → t2.color = nullString v)))
      st.todos (UpdateTodo now todoID req st).2.todos := by
  rcases UpdateTodo_cases now todoID req st with ⟨hfail, hst⟩ | ⟨hok, hst⟩
  · rw [hst, hfail]
    refine ⟨rfl, rfl, ?_⟩
    rw [List.forall₂_same]
    intro t _
    simp
  · rw [hst, hok]
    refine ⟨rfl, rfl, ?_⟩
    simp only [List.forall₂_map_right_iff]
    rw [List.forall₂_same]
    intro t _
    by_cases hid : t.id = todoID
    · rw [if_pos hid, foldl_setParts]
      refine ⟨rfl, rfl, rfl, rfl, Or.inr rfl, fun h => absurd hid h, ?_, ?_, ?_, ?_, ?_, ?_, ?_⟩
      · intro h; simp [h]
      · intro h; simp [h]
      · intro h; simp [h]
      · intro h; simp [h]
      · intro h; simp [h]
      · intro h; simp [h]
      · intro _ _
        refine ⟨?_, ?_, ?_, ?_, ?_, ?_⟩ <;> intro v h <;> simp [h]
    · rw [if_neg hid]
      refine ⟨rfl, rfl, rfl, rfl, Or.inl rfl, fun _ => rfl, fun _ => rfl, fun _ => rfl,
        fun _ => rfl, fun _ => rfl, fun _ => rfl, fun _ => rfl, fun _ h => absurd h hid⟩

/-- C7 as stated fails: on `sampleStore`, which holds no todo with id 99,
`UpdateTodo` with `completed` supplied answers 200 with `success = true`. -/
theorem UpdateTodo_absent_id_reports_success :
    (∀ t ∈ sampleStore.todos, t.id ≠ 99) ∧
    (UpdateTodo "2024-06-10 07:00:00" 99
        { Title := none, Completed := some true, CategoryID := none, ScheduledDate := none,
          SortOrder := none, Color := none } sampleStore)
      = (okResponse StatusOK "Todo updated successfully" ResponseData.none, sampleStore) := by
  decide

/-- C7, amended: for an id that no stored todo has and a request with at least
one supplied field, `UpdateTodo` reports success (status 200) and leaves the
store unchanged. -/
theorem UpdateTodo_absent_id (now : String) (todoID : Int) (req : UpdateTodoRequest)
    (st : Store) (habs : ∀ t ∈ st.todos, t.id ≠ todoID)
    (hsup : req.Title ≠ none ∨ req.Completed ≠ none ∨ req.CategoryID ≠ none ∨
      req.ScheduledDate ≠ none ∨ req.SortOrder ≠ none ∨ req.Color ≠ none) :
    UpdateTodo now todoID req st
      = (okResponse StatusOK "Todo updated successfully" ResponseData.none, st) := by
  have h0 : ¬ (setParts req).length = 0 := by
    rcases req with ⟨_ | a, _ | b, _ | c, _ | d, _ | e, _ | f⟩ <;> simp [setParts] at hsup ⊢
  have hex : todoExists st todoID = false := by
    simp only [todoExists, List.any_eq_false, beq_iff_eq]
    exact habs
  have hmap : st.todos.map (fun t =>
      if t.id = todoID then
        { (setParts req).foldl TodoSet.apply t with updated_at := now }
      else t) = st.todos := by
    conv_rhs => rw [← List.map_id st.todos]
    apply List.map_congr_left
    intro t ht
    rw [if_neg (habs t ht)]
    rfl
  unfold UpdateTodo
  rw [if_neg h0]
  unfold updateTodo
  simp only [hex, Bool.false_and, Bool.false_eq_true, if_false, hmap]

/-- Witness of the amended C7 on `sampleStore` and the absent id 99. -/
theorem UpdateTodo_absent_id_witness :
    (UpdateTodo "2024-06-10 07:00:00" 99
        { Title := some "Renamed", Completed := none, CategoryID := some 77,
          ScheduledDate := none, SortOrder := none, Color := none } sampleStore).1.success
      = true :=
  congrArg (fun r => r.1.success)
    (UpdateTodo_absent_id "2024-06-10 07:00:00" 99
      { Title := some "Renamed", Completed := none, CategoryID := some 77,
        ScheduledDate := none, SortOrder := none, Color := none } sampleStore
      (by decide) (Or.inl (by decide)))

theorem foldl_max_ge (l : List Int) :
    ∀ a : Int, a ≤ l.foldl max a ∧ ∀ x ∈ l, x ≤ l.foldl max a := by
  induction l with
  | nil => intro a; exact ⟨le_refl a, fun x hx => by cases hx⟩
  | cons b l ih =>
    intro a
    obtain ⟨h1, h2⟩ := ih (max a b)
    refine ⟨le_trans (le_max_left a b) h1, ?_⟩
    intro x hx
    rcases List.mem_cons.mp hx with rfl | hx
    · exact le_trans (le_max_right a x) h1
    · exact h2 x hx

/-- The id `AUTOINCREMENT` hands out is larger than every id in the table. -/
theorem lt_nextId (ids : List Int) (seq : Int) (x : Int) (hx : x ∈ ids) :
    x < nextId ids seq := by
  unfold nextId
  have h := (foldl_max_ge ids 0).2 x hx
  have h2 := le_max_left (ids.foldl max 0) seq
  omega

theorem categoryExists_eq_false {st : Store} {c : Int} :
    categoryExists st c = false ↔ ∀ cat ∈ st.categories, cat.id ≠ c := by
  simp [categoryExists]

/-- C8 as stated fails: on `sampleStore`, which has no category 99, `CreateTodo`
with a title and `category_id` 99 leaves the store unchanged but answers with
status 500, a server-side error, not a client-side one. -/
theorem CreateTodo_unknown_category_is_server_error :
    (∀ cat ∈ sampleStore.categories, cat.id ≠ 99) ∧
    CreateTodo "2024-06-10 07:00:00"
        { Title := "Write report", CategoryID := some 99, ScheduledDate := "2024-06-11",
          Color := "", RecurringPattern := "" } sampleStore
      = (errResponse StatusInternalServerError
          "Failed to create todo: FOREIGN KEY constraint failed", sampleStore) ∧
    (errResponse StatusInternalServerError
        "Failed to create todo: FOREIGN KEY constraint failed").isClientError = false := by
  decide

/-- C8, amended: `CreateTodo` fails and leaves the store unchanged when the
title is empty (status 400, client-side) and when the supplied `category_id` is
the id of no category (status 500, server-side: the foreign key rejects the
insert); otherwise it appends exactly one todo, whose id is new and is the one
returned, whose columns are the request's (`scheduled_date` as its column
keeps it), and whose `category_id` is absent or the id of an existing
category. -/
theorem CreateTodo_spec (now : String) (req : CreateTodoRequest) (st : Store) :
    (req.Title = "" →
      (CreateTodo now req st).2 = st ∧ (CreateTodo now req st).1.success = false ∧
      (CreateTodo now req st).1.status = StatusBadRequest ∧
      (CreateTodo now req st).1.isClientError = true) ∧
    (req.Title ≠ "" →
      (∃ c, req.CategoryID = some c ∧ ∀ cat ∈ st.categories, cat.id ≠ c) →
      CreateTodo now req st
        = (errResponse StatusInternalServerError
            "Failed to create todo: FOREIGN KEY constraint failed", st) ∧
      (CreateTodo now req st).1.isClientError = false ∧
      (CreateTodo now req st).1.isServerError = true) ∧
    (req.Title ≠ "" →
      (∀ c, req.CategoryID = some c → ∃ cat ∈ st.categories, cat.id = c) →
      ∃ t : Todo,
        CreateTodo now req st
          = (okResponse StatusCreated "Todo created successfully" (ResponseData.id t.id),
              { st with todos := st.todos ++ [t], seq_todos := t.id }) ∧
        (∀ t0 ∈ st.todos, t0.id < t.id) ∧
        t.title = req.Title ∧ t.completed = false ∧ t.category_id = req.CategoryID ∧
        t.scheduled_date = (nullString req.ScheduledDate).map numericAffinity ∧
        t.sort_order = 0 ∧
        t.color = nullString req.Color ∧
        t.recurring_pattern = nullString req.RecurringPattern ∧ t.parent_id = none ∧
        t.created_at = now ∧ t.updated_at = now) := by
  refine ⟨?_, ?_, ?_⟩
  · intro h
    unfold CreateTodo
    rw [if_pos h]
    exact ⟨rfl, rfl, rfl, rfl⟩
  · rintro h ⟨c, hc, hno⟩
    have hex : categoryExists st c = false := categoryExists_eq_false.mpr hno
    have heq : CreateTodo now req st
        = (errResponse StatusInternalServerError
            "Failed to create todo: FOREIGN KEY constraint failed", st) := by
      unfold CreateTodo
      rw [if_neg h]
      unfold insertTodo
      simp only [hc, hex, Bool.false_eq_true, if_false]
      rfl
    rw [heq]
    exact ⟨rfl, rfl, rfl⟩
  · intro h hcat
    have hfk : (match req.CategoryID with
        | some cid => categoryExists st cid
        | none => true) = true := by
      cases hc : req.CategoryID with
      | none => rfl
      | some c =>
        obtain ⟨cat, hmem, hid⟩ := hcat c hc
        simp only [categoryExists, List.any_eq_true, beq_iff_eq]
        exact ⟨cat, hmem, hid⟩
    refine ⟨{ id := nextId (st.todos.map (fun t => t.id)) st.seq_todos, title := req.Title,
              completed := false, category_id := req.CategoryID,
              scheduled_date := (nullString req.ScheduledDate).map numericAffinity,
              sort_order := 0,
              color := nullString req.Color,
              recurring_pattern := nullString req.RecurringPattern, parent_id := none,
              created_at := now, updated_at := now }, ?_, ?_, rfl, rfl, rfl, rfl, rfl, rfl,
            rfl, rfl, rfl, rfl⟩
    · unfold CreateTodo
      rw [if_neg h]
      unfold insertTodo
      rw [if_pos hfk]
    · intro t0 ht0
      exact lt_nextId _ _ _ (List.mem_map_of_mem (fun t => t.id) ht0)

/-- Handler `CreateCategory` either leaves the store or appends one row with the
requested name, which no row had. -/
theorem CreateCategory_cases (now : String) (req : CreateCategoryRequest) (st : Store) :
    (CreateCategory now req st).2 = st ∨
    ((∀ c ∈ st.categories, c.name ≠ req.Name) ∧
      ∃ row : Category, row.name = req.Name ∧
        (CreateCategory now req st).2.categories = st.categories ++ [row]) := by
  unfold CreateCategory
  by_cases h : req.Name = ""
  · rw [if_pos h]
    exact Or.inl rfl
  · rw [if_neg h]
    unfold insertCategory
    dsimp only
    by_cases hu : st.categories.any (fun c => c.name == req.Name) = true
    · rw [if_pos hu]
      exact Or.inl rfl
    · rw [if_neg hu]
      refine Or.inr ⟨?_, _, ?_, rfl⟩
      · simpa using hu
      · rfl

theorem CreateCategory_names_nodup (now : String) (req : CreateCategoryRequest) (st : Store)
    (h : (st.categories.map (fun c => c.name)).Nodup) :
    ((CreateCategory now req st).2.categories.map (fun c => c.name)).Nodup := by
  rcases CreateCategory_cases now req st with hst | ⟨hfree, row, hname, hcat⟩
  · rw [hst]
    exact h
  · rw [hcat, List.map_append, List.nodup_append]
    refine ⟨h, List.nodup_singleton _, ?_⟩
    intro a ha hb
    simp only [List.map_cons, List.map_nil, List.mem_singleton] at hb
    obtain ⟨c, hc, rfl⟩ := List.mem_map.mp ha
    exact hfree c hc (by rw [hb, hname])

/-- C9 as stated fails: on the initial store, whose first category is named
"Personal", `CreateCategory` with that name leaves the store unchanged but
answers with status 500, a server-side error, not a client-side one. -/
theorem CreateCategory_taken_name_is_server_error :
    CreateCategory "2024-06-10 07:00:00" { Name := "Personal", Color := "" }
        (initialStore "2024-06-01 08:00:00")
      = (errResponse StatusInternalServerError
          "Failed to create category: UNIQUE constraint failed: categories.name",
          initialStore "2024-06-01 08:00:00") ∧
    (errResponse StatusInternalServerError
        "Failed to create category: UNIQUE constraint failed: categories.name").isClientError
      = false := by
  decide

/-- C9, amended: `CreateCategory` fails and leaves the store unchanged when the
name is empty (status 400, client-side) and when the name is that of an
existing category (status 500, server-side: the `UNIQUE` constraint rejects the
insert); and from a store whose category names are pairwise distinct, every
sequence of `CreateCategory` calls leaves them pairwise distinct. -/
theorem CreateCategory_spec (env : Engine) (st : Store)
    (hnd : (st.categories.map (fun c => c.name)).Nodup) :
    (∀ (now : String) (req : CreateCategoryRequest), req.Name = "" →
      (CreateCategory now req st).2 = st ∧ (CreateCategory now req st).1.success = false ∧
      (CreateCategory now req st).1.status = StatusBadRequest ∧
      (CreateCategory now req st).1.isClientError = true) ∧
    (∀ (now : String) (req : CreateCategoryRequest), req.Name ≠ "" →
      (∃ c ∈ st.categories, c.name = req.Name) →
      CreateCategory now req st
        = (errResponse StatusInternalServerError
            "Failed to create category: UNIQUE constraint failed: categories.name", st) ∧
      (CreateCategory now req st).1.isClientError = false ∧
      (CreateCategory now req st).1.isServerError = true) ∧
    (∀ calls : List (String × CreateCategoryRequest),
      ((run env (calls.map (fun r => Op.createCategory r.1 r.2)) st).categories.map
        (fun c => c.name)).Nodup) := by
  refine ⟨?_, ?_, ?_⟩
  · intro now req h
    unfold CreateCategory
    rw [if_pos h]
    exact ⟨rfl, rfl, rfl, rfl⟩
  · rintro now req h ⟨c, hc, hname⟩
    have hu : st.categories.any (fun c => c.name == req.Name) = true := by
      simp only [List.any_eq_true, beq_iff_eq]
      exact ⟨c, hc, hname⟩
    have heq : CreateCategory now req st
        = (errResponse StatusInternalServerError
            "Failed to create category: UNIQUE constraint failed: categories.name", st) := by
      unfold CreateCategory
      rw [if_neg h]
      unfold insertCategory
      simp only [hu, if_true]
      rfl
    rw [heq]
    exact ⟨rfl, rfl, rfl⟩
  · intro calls
    induction calls generalizing st with
    | nil => exact hnd
    | cons r rest ih =>
      simp only [List.map_cons, run, List.foldl_cons]
      exact ih _ (CreateCategory_names_nodup r.1 r.2 st hnd)

/-- Witness of the amended C9 on the initial store: after creating "Work" and
trying "Work" and "Personal" again the names are still pairwise distinct. -/
theorem CreateCategory_spec_witness :
    ((run sampleEngine
      [Op.createCategory "2024-06-10 07:00:00" { Name := "Work", Color := "" },
       Op.createCategory "2024-06-10 07:01:00" { Name := "Work", Color := "#ffffff" },
       Op.createCategory "2024-06-10 07:02:00" { Name := "Personal", Color := "" }]
      (initialStore "2024-06-01 08:00:00")).categories.map (fun c => c.name)).Nodup :=
  (CreateCategory_spec sampleEngine (initialStore "2024-06-01 08:00:00") (by decide)).2.2
    [("2024-06-10 07:00:00", { Name := "Work", Color := "" }),
     ("2024-06-10 07:01:00", { Name := "Work", Color := "#ffffff" }),
     ("2024-06-10 07:02:00", { Name := "Personal", Color := "" })]

/-- Handler `CreateTodo` either leaves the store or appends one row whose date is the
request's. -/
theorem CreateTodo_cases (now : String) (req : CreateTodoRequest) (st : Store) :
    (CreateTodo now req st).2 = st ∨
    ∃ row : Todo, row.scheduled_date = (nullString req.ScheduledDate).map numericAffinity ∧
      (CreateTodo now req st).2.todos = st.todos ++ [row] := by
  unfold CreateTodo
  by_cases h : req.Title = ""
  · rw [if_pos h]
    exact Or.inl rfl
  · rw [if_neg h]
    unfold insertTodo
    dsimp only
    split_ifs with hfk
    · exact Or.inr ⟨_, rfl, rfl⟩
    · exact Or.inl rfl

theorem isDigit_bounds {c : Char} (h : c.isDigit = true) : 48 ≤ c.toNat ∧ c.toNat ≤ 57 := by
  simp only [Char.isDigit, Bool.and_eq_true, decide_eq_true_eq] at h
  obtain ⟨h1, h2⟩ := h
  have h1n : (48 : UInt32).toNat ≤ c.val.toNat := h1
  have h2n : c.val.toNat ≤ (57 : UInt32).toNat := h2
  exact ⟨h1n, h2n⟩

theorem isSqlSpace_of_isDigit {c : Char} (h : c.isDigit = true) : isSqlSpace c = false := by
  obtain ⟨h1, h2⟩ := isDigit_bounds h
  unfold isSqlSpace
  simp only [Bool.or_eq_false_iff, beq_eq_false_iff_ne, ne_eq, Bool.and_eq_false_imp,
    decide_eq_true_eq, decide_eq_false_iff_not]
  omega

theorem ne_of_isDigit {c d : Char} (h : c.isDigit = true) (hd : d.isDigit = false) :
    (c == d) = false := by
  rw [beq_eq_false_iff_ne]
  rintro rfl
  rw [h] at hd
  cases hd

theorem foldl_digits_none (cs : List Char) :
    cs.foldl (fun (acc : Option Nat) c =>
      match acc with
      | some n => if c.isDigit then some (10 * n + (c.toNat - 48)) else none
      | none => none) none = none := by
  induction cs with
  | nil => rfl
  | cons c cs ih => exact ih

theorem digitsValue_all_isDigit (cs : List Char) :
    ∀ (a : Nat) (n : Nat), cs.foldl (fun (acc : Option Nat) c =>
      match acc with
      | some n => if c.isDigit then some (10 * n + (c.toNat - 48)) else none
      | none => none) (some a) = some n → ∀ c ∈ cs, c.isDigit = true := by
  induction cs with
  | nil => intro a n _ c hc; cases hc
  | cons b cs ih =>
    intro a n h c hc
    rw [List.foldl_cons] at h
    by_cases hb : b.isDigit = true
    · simp only [hb, if_true] at h
      rcases List.mem_cons.mp hc with rfl | hc
      · exact hb
      · exact ih _ n h c hc
    · simp only [hb, Bool.false_eq_true, if_false] at h
      rw [foldl_digits_none] at h
      cases h

theorem parseNumericLiteral_digits_dash (y1 y2 y3 y4 : Char) (tail : List Char)
    (h1 : y1.isDigit = true) (h2 : y2.isDigit = true) (h3 : y3.isDigit = true)
    (h4 : y4.isDigit = true) :
    parseNumericLiteral (y1 :: y2 :: y3 :: y4 :: '-' :: tail) = none := by
  have hm : ('-' : Char).isDigit = false := by decide
  have hp : ('+' : Char).isDigit = false := by decide
  have e1 := ne_of_isDigit h1 hm
  have e2 := ne_of_isDigit h1 hp
  have hsp := isSqlSpace_of_isDigit h1
  have hsm : isSqlSpace '-' = false := by decide
  have hA : ∀ l : List Char, List.dropWhile isSqlSpace (y1 :: l) = y1 :: l := by
    intro l
    simp only [List.dropWhile, hsp]
  have hA2 : ∀ l : List Char, List.dropWhile isSqlSpace ('-' :: l) = '-' :: l := by
    intro l
    simp only [List.dropWhile, hsm]
  have hB : ∀ l : List Char, dropSign (y1 :: l) = y1 :: l := by
    intro l
    simp only [dropSign, e1, e2, Bool.or_self, Bool.false_eq_true, if_false]
  have hC : List.takeWhile Char.isDigit (y1 :: y2 :: y3 :: y4 :: '-' :: tail)
      = [y1, y2, y3, y4] := by
    simp only [List.takeWhile, h1, h2, h3, h4, hm]
  have hD : List.dropWhile Char.isDigit (y1 :: y2 :: y3 :: y4 :: '-' :: tail)
      = '-' :: tail := by
    simp only [List.dropWhile, h1, h2, h3, h4, hm]
  unfold parseNumericLiteral
  simp only [hA, hB, hC, hD, hA2]
  simp [hsm]

theorem numericAffinity_of_isCalendarDate (s : String) (h : isCalendarDate s = true) :
    numericAffinity s = SqlValue.text s := by
  unfold isCalendarDate at h
  have hparse : parseNumericLiteral s.toList = none := by
    generalize s.toList = l at h
    match l, h with
    | [y1, y2, y3, y4, s1, m1, m2, s2, d1, d2], h =>
      simp only [Bool.and_eq_true, beq_iff_eq] at h
      obtain ⟨⟨hs1, hs2⟩, hval⟩ := h
      subst hs1
      cases hy : digitsValue [y1, y2, y3, y4] with
      | none => rw [hy] at hval; simp at hval
      | some y =>
        have hall := digitsValue_all_isDigit [y1, y2, y3, y4] 0 y hy
        exact parseNumericLiteral_digits_dash y1 y2 y3 y4 _ (hall y1 (by simp))
          (hall y2 (by simp)) (hall y3 (by simp)) (hall y4 (by simp))
  unfold numericAffinity
  rw [hparse]

theorem DeleteTodo_todos (now : String) (todoID : Int) (st : Store) :
    ∀ t ∈ (DeleteTodo now todoID st).2.todos,
      ∃ t0 ∈ st.todos, t.scheduled_date = t0.scheduled_date := by
  intro t ht
  unfold DeleteTodo deleteTodo at ht
  by_cases hex : todoExists st todoID = true
  · rw [if_pos hex] at ht
    simp only [List.mem_map, List.mem_filter] at ht
    obtain ⟨t0, ⟨ht0, _⟩, rfl⟩ := ht
    refine ⟨t0, ht0, ?_⟩
    split <;> rfl
  · rw [if_neg hex] at ht
    exact ⟨t, ht, rfl⟩

theorem DeleteCategory_todos (now : String) (categoryID : Int) (st : Store) :
    ∀ t ∈ (DeleteCategory now categoryID st).2.todos,
      ∃ t0 ∈ st.todos, t.scheduled_date = t0.scheduled_date := by
  intro t ht
  unfold DeleteCategory at ht
  dsimp only at ht
  by_cases hc : countTodosInCategory categoryID st > 0
  · rw [if_pos hc] at ht
    exact ⟨t, ht, rfl⟩
  · rw [if_neg hc] at ht
    unfold deleteCategory at ht
    by_cases hex : categoryExists st categoryID = true
    · rw [if_pos hex] at ht
      simp only [List.mem_map] at ht
      obtain ⟨t0, ht0, rfl⟩ := ht
      refine ⟨t0, ht0, ?_⟩
      split <;> rfl
    · rw [if_neg hex] at ht
      exact ⟨t, ht, rfl⟩

theorem CreateCategory_todos (now : String) (req : CreateCategoryRequest) (st : Store) :
    (CreateCategory now req st).2.todos = st.todos := by
  unfold CreateCategory
  by_cases h : req.Name = ""
  · rw [if_pos h]
  · rw [if_neg h]
    unfold insertCategory
    dsimp only
    split_ifs <;> rfl


theorem runInitialMigration_todos (env : Engine) (today now : String) (st : Store) :
    ∀ t ∈ (runInitialMigration env today now st).todos,
      t.scheduled_date = some (numericAffinity today) ∨
        ∃ t0 ∈ st.todos, t.scheduled_date = t0.scheduled_date := by
  intro t ht
  unfold runInitialMigration at ht
  dsimp only at ht
  by_cases hc : countPastTodos env today st > 0
  · rw [if_pos hc] at ht
    simp only [updatePastTodos, List.mem_map] at ht
    obtain ⟨t0, ht0, rfl⟩ := ht
    by_cases hp : isPast env today t0 = true
    · rw [if_pos hp]
      exact Or.inl rfl
    · rw [if_neg hp]
      exact Or.inr ⟨t0, ht0, rfl⟩
  · rw [if_neg hc] at ht
    exact Or.inr ⟨t, ht, rfl⟩

theorem map_numericAffinity_eq_some {o : Option String} {v : SqlValue}
    (h : o.map numericAffinity = some v) : ∃ s ∈ o.toList, numericAffinity s = v := by
  cases o with
  | none => cases h
  | some s =>
    simp only [Option.map_some', Option.some.injEq] at h
    exact ⟨s, by simp, h⟩

/-- One call keeps any property of the stored dates that the values kept for
the strings it can write have. -/
theorem step_dates (env : Engine) (P : SqlValue → Prop) (op : Op) (st : Store)
    (hinv : ∀ t ∈ st.todos, ∀ v, t.scheduled_date = some v → P v)
    (hop : ∀ s ∈ op.dates, P (numericAffinity s)) :
    ∀ t ∈ (op.step env st).todos, ∀ v, t.scheduled_date = some v → P v := by
  intro t ht v hv
  cases op with
  | createTodo now req =>
    simp only [Op.step] at ht
    rcases CreateTodo_cases now req st with hst | ⟨row, hrow, htodos⟩
    · rw [hst] at ht
      exact hinv t ht v hv
    · rw [htodos, List.mem_append, List.mem_singleton] at ht
      rcases ht with ht | rfl
      · exact hinv t ht v hv
      · rw [hrow] at hv
        obtain ⟨s, hs, rfl⟩ := map_numericAffinity_eq_some hv
        exact hop s hs
  | updateTodo now todoID req =>
    simp only [Op.step] at ht
    rcases UpdateTodo_cases now todoID req st with ⟨_, hst⟩ | ⟨_, hst⟩
    · rw [hst] at ht
      exact hinv t ht v hv
    · rw [hst] at ht
      simp only [List.mem_map] at ht
      obtain ⟨t0, ht0, rfl⟩ := ht
      by_cases hid : t0.id = todoID
      · rw [if_pos hid, foldl_setParts] at hv
        simp only at hv
        cases hreq : req.ScheduledDate with
        | none =>
          rw [hreq] at hv
          exact hinv t0 ht0 v hv
        | some w =>
          rw [hreq] at hv
          have hv2 : (nullString w).map numericAffinity = some v := hv
          obtain ⟨s, hs, rfl⟩ := map_numericAffinity_eq_some hv2
          apply hop
          simp only [Op.dates, hreq]
          exact hs
      · rw [if_neg hid] at hv
        exact hinv t0 ht0 v hv
  | deleteTodo now todoID =>
    simp only [Op.step] at ht
    obtain ⟨t0, ht0, heq⟩ := DeleteTodo_todos now todoID st t ht
    exact hinv t0 ht0 v (by rw [← heq, hv])
  | migratePastTodos today now =>
    simp only [Op.step, MigratePastTodos_locked] at ht
    exact hinv t ht v hv
  | initialMigration today now =>
    simp only [Op.step] at ht
    rcases runInitialMigration_todos env today now st t ht with h | ⟨t0, ht0, heq⟩
    · rw [h] at hv
      simp only [Option.some.injEq] at hv
      rw [← hv]
      apply hop
      simp [Op.dates]
    · exact hinv t0 ht0 v (by rw [← heq, hv])
  | createCategory now req =>
    simp only [Op.step, CreateCategory_todos] at ht
    exact hinv t ht v hv
  | deleteCategory now categoryID =>
    simp only [Op.step] at ht
    obtain ⟨t0, ht0, heq⟩ := DeleteCategory_todos now categoryID st t ht
    exact hinv t0 ht0 v (by rw [← heq, hv])

theorem run_dates (env : Engine) (P : SqlValue → Prop) (ops : List Op) :
    ∀ st : Store, (∀ t ∈ st.todos, ∀ v, t.scheduled_date = some v → P v) →
      (∀ op ∈ ops, ∀ s ∈ op.dates, P (numericAffinity s)) →
      ∀ t ∈ (run env ops st).todos, ∀ v, t.scheduled_date = some v → P v := by
  induction ops with
  | nil => intro st hinv _; exact hinv
  | cons op rest ih =>
    intro st hinv hops
    simp only [run, List.foldl_cons]
    exact ih (op.step env st)
      (step_dates env P op st hinv (hops op (List.mem_cons_self _ _)))
      (fun o ho => hops o (List.mem_cons_of_mem _ ho))

/-- C10 as stated fails: from the initial store, one `CreateTodo` whose
`scheduled_date` is "not-a-date", which is no calendar date, leaves a todo
with exactly that string as its `scheduled_date`; one whose `scheduled_date`
is "1e2" leaves a todo whose `scheduled_date` is the integer 100. -/
theorem invalid_date_is_stored :
    isCalendarDate "not-a-date" = false ∧
    (run sampleEngine
        [Op.createTodo "2024-06-10 07:00:00"
            { Title := "Plan trip", CategoryID := none, ScheduledDate := "not-a-date",
              Color := "", RecurringPattern := "" }]
        (initialStore "2024-06-01 08:00:00")).todos.map (fun t => t.scheduled_date)
      = [some (SqlValue.text "not-a-date")] ∧
    isCalendarDate "1e2" = false ∧
    (run sampleEngine
        [Op.createTodo "2024-06-10 07:00:00"
            { Title := "Plan trip", CategoryID := none, ScheduledDate := "1e2",
              Color := "", RecurringPattern := "" }]
        (initialStore "2024-06-01 08:00:00")).todos.map (fun t => t.scheduled_date)
      = [some (SqlValue.integer 100)] := by
  decide

/-- C10, amended: in every state reached from the initial store by calls of
`CreateTodo`, `UpdateTodo`, `DeleteTodo` and the two migration passes (and the
category handlers), each todo's `scheduled_date` is absent or the value its
column keeps for one of the strings those calls supplied (the `scheduled_date`
of a request, the `today` of a startup pass); a string that is a valid calendar
date is kept as that text; so when every supplied string is a valid calendar
date, each todo's `scheduled_date` is absent or a valid calendar date. -/
theorem scheduled_dates_valid (env : Engine) (now0 : String) (ops : List Op) :
    (∀ t ∈ (run env ops (initialStore now0)).todos,
      t.scheduled_date = none ∨
      ∃ op ∈ ops, ∃ s ∈ op.dates, t.scheduled_date = some (numericAffinity s)) ∧
    (∀ s, isCalendarDate s = true → numericAffinity s = SqlValue.text s) ∧
    ((∀ op ∈ ops, ∀ s ∈ op.dates, isCalendarDate s = true) →
      ∀ t ∈ (run env ops (initialStore now0)).todos,
        t.scheduled_date = none ∨
        ∃ d, t.scheduled_date = some (SqlValue.text d) ∧ isCalendarDate d = true ∧
          ∃ op ∈ ops, d ∈ op.dates) := by
  refine ⟨?_, numericAffinity_of_isCalendarDate, ?_⟩
  · intro t ht
    cases hd : t.scheduled_date with
    | none => exact Or.inl rfl
    | some v =>
      refine Or.inr ?_
      obtain ⟨op, hop, s, hs, hv⟩ :=
        run_dates env (fun v => ∃ op ∈ ops, ∃ s ∈ op.dates, v = numericAffinity s) ops
          (initialStore now0) (fun t ht => by cases ht)
          (fun op hop s hs => ⟨op, hop, s, hs, rfl⟩) t ht v hd
      exact ⟨op, hop, s, hs, by rw [hv]⟩
  · intro hvalid t ht
    cases hd : t.scheduled_date with
    | none => exact Or.inl rfl
    | some v =>
      refine Or.inr ?_
      obtain ⟨op, hop, s, hs, hv⟩ :=
        run_dates env (fun v => ∃ op ∈ ops, ∃ s ∈ op.dates, v = numericAffinity s) ops
          (initialStore now0) (fun t ht => by cases ht)
          (fun op hop s hs => ⟨op, hop, s, hs, rfl⟩) t ht v hd
      have hcal := hvalid op hop s hs
      refine ⟨s, ?_, hcal, op, hop, hs⟩
      rw [hv, numericAffinity_of_isCalendarDate s hcal]

/-- Example of the amended C10: a todo created for 2024-06-09 and moved by the
startup pass of 2024-06-10 holds the valid date 2024-06-10, kept as text. -/
theorem scheduled_dates_valid_witness :
    (run sampleEngine
      [Op.createTodo "2024-06-09 09:00:00"
         { Title := "Ship release", CategoryID := some 1, ScheduledDate := "2024-06-09",
           Color := "", RecurringPattern := "" },
       Op.initialMigration "2024-06-10" "2024-06-10 07:00:00"]
      (initialStore "2024-06-01 08:00:00")).todos.map (fun t => t.scheduled_date)
        = [some (SqlValue.text "2024-06-10")] ∧
    ∀ t ∈ (run sampleEngine
      [Op.createTodo "2024-06-09 09:00:00"
         { Title := "Ship release", CategoryID := some 1, ScheduledDate := "2024-06-09",
           Color := "", RecurringPattern := "" },
       Op.initialMigration "2024-06-10" "2024-06-10 07:00:00"]
      (initialStore "2024-06-01 08:00:00")).todos,
      t.scheduled_date = none ∨
      ∃ d, t.scheduled_date = some (SqlValue.text d) ∧ isCalendarDate d = true ∧
        ∃ op ∈
          [Op.createTodo "2024-06-09 09:00:00"
             { Title := "Ship release", CategoryID := some 1, ScheduledDate := "2024-06-09",
               Color := "", RecurringPattern := "" },
           Op.initialMigration "2024-06-10" "2024-06-10 07:00:00"], d ∈ op.dates :=
  ⟨by decide,
   (scheduled_dates_valid sampleEngine "2024-06-01 08:00:00"
    [Op.createTodo "2024-06-09 09:00:00"
       { Title := "Ship release", CategoryID := some 1, ScheduledDate := "2024-06-09",
         Color := "", RecurringPattern := "" },
     Op.initialMigration "2024-06-10" "2024-06-10 07:00:00"]).2.2
    (by decide)⟩

/-! ## Lemmas on ordering and the read queries -/

theorem orderedInsert_perm {α : Type} (le : α → α → Bool) (a : α) :
    ∀ l : List α, (orderedInsert le a l).Perm (a :: l) := by
  intro l
  induction l with
  | nil => exact List.Perm.refl _
  | cons b l ih =>
    unfold orderedInsert
    split
    · exact List.Perm.refl _
    · exact ((List.perm_cons b).mpr ih).trans (List.Perm.swap a b l)

theorem orderBy_perm {α : Type} (le : α → α → Bool) :
    ∀ l : List α, (orderBy le l).Perm l := by
  intro l
  induction l with
  | nil => exact List.Perm.refl _
  | cons a l ih =>
    unfold orderBy
    exact (orderedInsert_perm le a _).trans ((List.perm_cons a).mpr ih)

theorem orderedInsert_pairwise {α : Type} (le : α → α → Bool)
    (htotal : ∀ a b, le a b = true ∨ le b a = true)
    (htrans : ∀ a b c, le a b = true → le b c = true → le a c = true) (a : α) :
    ∀ l : List α, l.Pairwise (fun x y => le x y = true) →
      (orderedInsert le a l).Pairwise (fun x y => le x y = true) := by
  intro l
  induction l with
  | nil => intro _; simp [orderedInsert]
  | cons b l ih =>
    intro hl
    obtain ⟨hb, hl2⟩ := List.pairwise_cons.mp hl
    unfold orderedInsert
    by_cases hab : le a b = true
    · rw [if_pos hab]
      refine List.pairwise_cons.mpr ⟨?_, hl⟩
      intro x hx
      rcases List.mem_cons.mp hx with rfl | hx
      · exact hab
      · exact htrans a b x hab (hb x hx)
    · rw [if_neg hab]
      refine List.pairwise_cons.mpr ⟨?_, ih hl2⟩
      intro x hx
      rcases List.mem_cons.mp ((orderedInsert_perm le a l).mem_iff.mp hx) with rfl | hx
      · exact (htotal x b).resolve_left hab
      · exact hb x hx

theorem orderBy_pairwise {α : Type} (le : α → α → Bool)
    (htotal : ∀ a b, le a b = true ∨ le b a = true)
    (htrans : ∀ a b c, le a b = true → le b c = true → le a c = true) :
    ∀ l : List α, (orderBy le l).Pairwise (fun x y => le x y = true) := by
  intro l
  induction l with
  | nil => exact List.Pairwise.nil
  | cons a l ih =>
    unfold orderBy
    exact orderedInsert_pairwise le htotal htrans a _ ih

theorem textLtChars_asymm :
    ∀ a b : List Char, textLtChars a b = true → textLtChars b a = false := by
  intro a
  induction a with
  | nil =>
    intro b _
    cases b <;> rfl
  | cons x xs ih =>
    intro b h
    cases b with
    | nil => simp [textLtChars] at h
    | cons y ys =>
      simp only [textLtChars] at h ⊢
      by_cases h1 : x.toNat < y.toNat
      · have h2 : ¬ y.toNat < x.toNat := by omega
        simp [h1, h2]
      · by_cases h2 : y.toNat < x.toNat
        · simp [h1, h2] at h
        · simp only [h1, h2, if_false] at h ⊢
          exact ih ys h

theorem textLtChars_negtrans :
    ∀ a b c : List Char, textLtChars b a = false → textLtChars c b = false →
      textLtChars c a = false := by
  intro a
  induction a with
  | nil =>
    intro b c hba hcb
    cases c with
    | nil => rfl
    | cons z zs => rfl
  | cons x xs ih =>
    intro b c hba hcb
    cases b with
    | nil =>
      cases c with
      | nil => simp [textLtChars] at hba
      | cons z zs => simp [textLtChars] at hba
    | cons y ys =>
      cases c with
      | nil => simp [textLtChars] at hcb
      | cons z zs =>
        simp only [textLtChars] at hba hcb ⊢
        by_cases hyx : y.toNat < x.toNat
        · simp [hyx] at hba
        · by_cases hzy : z.toNat < y.toNat
          · simp [hzy] at hcb
          · by_cases hxy : x.toNat < y.toNat
            · have h1 : ¬ z.toNat < x.toNat := by omega
              have h3 : x.toNat < z.toNat := by omega
              simp [h1, h3]
            · by_cases hyz : y.toNat < z.toNat
              · have h1 : ¬ z.toNat < x.toNat := by omega
                have h3 : x.toNat < z.toNat := by omega
                simp [h1, h3]
              · have h1 : ¬ z.toNat < x.toNat := by omega
                have h3 : ¬ x.toNat < z.toNat := by omega
                simp only [hyx, hxy, if_false] at hba
                simp only [hzy, hyz, if_false] at hcb
                simp only [h1, h3, if_false]
                exact ih ys zs hba hcb

theorem textLt_total (a b : String) : textLt b a = false ∨ textLt a b = false := by
  by_cases h : textLt b a = true
  · exact Or.inr (textLtChars_asymm _ _ h)
  · exact Or.inl (by simpa using h)

theorem textLt_negtrans (a b c : String) (hba : textLt b a = false) (hcb : textLt c b = false) :
    textLt c a = false :=
  textLtChars_negtrans _ _ _ hba hcb

theorem bySortOrderCreatedAt_total (a b : Todo × Option Category) :
    bySortOrderCreatedAt a b = true ∨ bySortOrderCreatedAt b a = true := by
  simp only [bySortOrderCreatedAt, Bool.or_eq_true, Bool.and_eq_true, decide_eq_true_eq,
    beq_iff_eq, Bool.not_eq_true']
  rcases lt_trichotomy a.1.sort_order b.1.sort_order with h | h | h
  · exact Or.inl (Or.inl h)
  · rcases textLt_total a.1.created_at b.1.created_at with ht | ht
    · exact Or.inl (Or.inr ⟨h, ht⟩)
    · exact Or.inr (Or.inr ⟨h.symm, ht⟩)
  · exact Or.inr (Or.inl h)

theorem bySortOrderCreatedAt_trans (a b c : Todo × Option Category)
    (hab : bySortOrderCreatedAt a b = true) (hbc : bySortOrderCreatedAt b c = true) :
    bySortOrderCreatedAt a c = true := by
  simp only [bySortOrderCreatedAt, Bool.or_eq_true, Bool.and_eq_true, decide_eq_true_eq,
    beq_iff_eq, Bool.not_eq_true'] at hab hbc ⊢
  rcases hab with h1 | ⟨h1, t1⟩ <;> rcases hbc with h2 | ⟨h2, t2⟩
  · exact Or.inl (lt_trans h1 h2)
  · exact Or.inl (h2 ▸ h1)
  · exact Or.inl (h1 ▸ h2)
  · exact Or.inr ⟨h1.trans h2, textLt_negtrans _ _ _ t1 t2⟩

/-- With pairwise distinct category ids at most one category matches a key. -/
theorem filter_category_length_le_one (k : Option Int) :
    ∀ l : List Category, (l.map (fun c => c.id)).Nodup →
      (l.filter (fun c => k == some c.id)).length ≤ 1 := by
  intro l
  induction l with
  | nil => intro _; simp
  | cons c l ih =>
    intro hnd
    rw [List.map_cons, List.nodup_cons] at hnd
    obtain ⟨hnot, hnd2⟩ := hnd
    by_cases hk : (k == some c.id) = true
    · simp only [List.filter_cons, hk, if_true]
      have hnil : l.filter (fun c => k == some c.id) = [] := by
        apply List.eq_nil_iff_forall_not_mem.mpr
        intro x hx
        obtain ⟨hx1, hx2⟩ := List.mem_filter.mp hx
        apply hnot
        have h1 : k = some c.id := by simpa using hk
        have h2 : k = some x.id := by simpa using hx2
        have h3 : x.id = c.id := by
          rw [h1] at h2
          exact (Option.some.inj h2).symm
        rw [← h3]
        exact List.mem_map_of_mem (fun c => c.id) hx1
      rw [hnil]
      simp
    · simp only [List.filter_cons, hk]
      exact ih hnd2

/-- With pairwise distinct category ids the join yields one row per todo. -/
theorem joinCategories_fst (st : Store) (hpk : (st.categories.map (fun c => c.id)).Nodup)
    (t : Todo) : (joinCategories st t).map Prod.fst = [t] := by
  unfold joinCategories
  have hlen := filter_category_length_le_one t.category_id st.categories hpk
  cases hf : st.categories.filter (fun c => t.category_id == some c.id) with
  | nil => rfl
  | cons c cs =>
    rw [hf] at hlen
    cases cs with
    | nil => rfl
    | cons c2 cs2 => simp at hlen

theorem leftJoinCategories_fst (st : Store)
    (hpk : (st.categories.map (fun c => c.id)).Nodup) :
    (leftJoinCategories st).map Prod.fst = st.todos := by
  unfold leftJoinCategories
  rw [List.map_flatMap]
  induction st.todos with
  | nil => rfl
  | cons t l ih =>
    rw [List.flatMap_cons, joinCategories_fst st hpk t, ih]
    rfl

/-- A joined row carries a category exactly when one matches, and then a
matching one. -/
theorem mem_joinCategories {st : Store} {t : Todo} {r : Todo × Option Category}
    (hr : r ∈ joinCategories st t) :
    r.1 = t ∧
    ((r.2 = none ∧ ∀ c ∈ st.categories, t.category_id ≠ some c.id) ∨
      ∃ c ∈ st.categories, r.2 = some c ∧ t.category_id = some c.id) := by
  unfold joinCategories at hr
  cases hf : st.categories.filter (fun c => t.category_id == some c.id) with
  | nil =>
    rw [hf] at hr
    simp only [List.mem_singleton] at hr
    subst hr
    refine ⟨rfl, Or.inl ⟨rfl, ?_⟩⟩
    intro c hc heq
    have : c ∈ st.categories.filter (fun c => t.category_id == some c.id) :=
      List.mem_filter.mpr ⟨hc, by simpa using heq⟩
    rw [hf] at this
    cases this
  | cons c cs =>
    rw [hf] at hr
    obtain ⟨c2, hc2, rfl⟩ := List.mem_map.mp hr
    rw [← hf] at hc2
    obtain ⟨h1, h2⟩ := List.mem_filter.mp hc2
    exact ⟨rfl, Or.inr ⟨c2, h1, rfl, by simpa using h2⟩⟩

theorem mem_leftJoinCategories {st : Store} {r : Todo × Option Category}
    (hr : r ∈ leftJoinCategories st) :
    r.1 ∈ st.todos ∧
    ((r.2 = none ∧ ∀ c ∈ st.categories, r.1.category_id ≠ some c.id) ∨
      ∃ c ∈ st.categories, r.2 = some c ∧ r.1.category_id = some c.id) := by
  unfold leftJoinCategories at hr
  obtain ⟨t, ht, hrt⟩ := List.mem_flatMap.mp hr
  obtain ⟨h1, h2⟩ := mem_joinCategories hrt
  rw [h1]
  exact ⟨ht, h2⟩

/-- What a scanned row of the join carries for the category columns. -/
theorem scanTodo_category (env : Engine) {st : Store} (hpk : (st.categories.map (fun c => c.id)).Nodup)
    {r : Todo × Option Category} (hr : r ∈ leftJoinCategories st) :
    (∀ c ∈ st.categories, r.1.category_id = some c.id →
      (scanTodo env r).CategoryName = c.name ∧ (scanTodo env r).CategoryColor = c.color) ∧
    ((∀ c ∈ st.categories, r.1.category_id ≠ some c.id) →
      (scanTodo env r).CategoryName = "" ∧ (scanTodo env r).CategoryColor = "") := by
  obtain ⟨_, hcase⟩ := mem_leftJoinCategories hr
  have hinj := List.inj_on_of_nodup_map hpk
  rcases hcase with ⟨hnone, hall⟩ | ⟨c0, hc0, hsome, hid0⟩
  · refine ⟨fun c hc hid => absurd hid (hall c hc), fun _ => ?_⟩
    simp [scanTodo, hnone]
  · refine ⟨?_, fun hall => absurd hid0 (hall c0 hc0)⟩
    intro c hc hid
    have heq : c0 = c := by
      apply hinj hc0 hc
      rw [hid0] at hid
      exact Option.some.inj hid
    rw [← heq]
    simp [scanTodo, hsome]

theorem sqlEq_text_iff (env : Engine) (v : SqlValue) (d : String) :
    sqlEq env v (SqlValue.text d) = true ↔ v = SqlValue.text d := by
  cases v with
  | integer n => simp [sqlEq]
  | numeric l => simp [sqlEq]
  | text s => simp [sqlEq]

/-- C11: with pairwise distinct category ids (the primary key),
`getTodosForDate d` returns one result for each stored todo whose
`scheduled_date` equals `d` and no other (the results are the scanned columns
of a rearrangement of exactly these todos, `scheduled_date` as the driver
renders it); the result is ordered by `sort_order` ascending and, among equal
`sort_order`, by `created_at` ascending; each result carries the name and color
of the category its `category_id` names, both empty when no category has that
id (in particular without `category_id`). A stored date equals `d` as the
store compares the two: for a `d` that is no numeric literal, it is the text
`d`. -/
theorem getTodosForDate_spec (env : Engine) (date : String) (st : Store)
    (hpk : (st.categories.map (fun c => c.id)).Nodup) :
    (∃ todos : List Todo,
      todos.Perm (st.todos.filter (hasDate env date)) ∧
      List.Forall₂
        (fun t v =>
          v.ID = t.id ∧ v.Title = t.title ∧ v.Completed = t.completed ∧
          v.CategoryID = t.category_id ∧
          v.ScheduledDate = t.scheduled_date.map env.scanDate ∧
          v.SortOrder = t.sort_order ∧ v.Color = t.color ∧
          v.RecurringPattern = t.recurring_pattern ∧ v.ParentID = t.parent_id ∧
          v.CreatedAt = t.created_at ∧ v.UpdatedAt = t.updated_at ∧
          (∀ c ∈ st.categories, t.category_id = some c.id →
            v.CategoryName = c.name ∧ v.CategoryColor = c.color) ∧
          ((∀ c ∈ st.categories, t.category_id ≠ some c.id) →
            v.CategoryName = "" ∧ v.CategoryColor = ""))
        todos (getTodosForDate env date st)) ∧
    (getTodosForDate env date st).Pairwise (fun a b =>
        a.SortOrder < b.SortOrder ∨
        (a.SortOrder = b.SortOrder ∧ textLt b.CreatedAt a.CreatedAt = false)) ∧
    (∀ t, hasDate env date t = true ↔
      ∃ v, t.scheduled_date = some v ∧ sqlEq env v (numericAffinity date) = true) ∧
    (numericAffinity date = SqlValue.text date →
      ∀ t, hasDate env date t = true ↔ t.scheduled_date = some (SqlValue.text date)) := by
  have hdef : ∀ t, hasDate env date t = true ↔
      ∃ v, t.scheduled_date = some v ∧ sqlEq env v (numericAffinity date) = true := by
    intro t
    unfold hasDate
    cases t.scheduled_date with
    | none => simp
    | some v => simp
  refine ⟨?_, ?_, hdef, ?_⟩
  · refine ⟨(orderBy bySortOrderCreatedAt
      ((leftJoinCategories st).filter (fun r => hasDate env date r.1))).map Prod.fst, ?_, ?_⟩
    · refine ((orderBy_perm _ _).map Prod.fst).trans ?_
      have hfm : ((leftJoinCategories st).filter (fun r => hasDate env date r.1)).map Prod.fst
          = ((leftJoinCategories st).map Prod.fst).filter (hasDate env date) := by
        rw [List.filter_map]
        rfl
      rw [hfm, leftJoinCategories_fst st hpk]
    · unfold getTodosForDate
      rw [List.forall₂_map_left_iff, List.forall₂_map_right_iff, List.forall₂_same]
      intro r hr
      have hr2 := (orderBy_perm _ _).mem_iff.mp hr
      obtain ⟨hjoin, _⟩ := List.mem_filter.mp hr2
      obtain ⟨h1, h2⟩ := scanTodo_category env hpk hjoin
      exact ⟨rfl, rfl, rfl, rfl, rfl, rfl, rfl, rfl, rfl, rfl, rfl, h1, h2⟩
  · unfold getTodosForDate
    refine List.Pairwise.map (scanTodo env) ?_
      (orderBy_pairwise bySortOrderCreatedAt bySortOrderCreatedAt_total
        bySortOrderCreatedAt_trans _)
    intro a b hab
    simpa [bySortOrderCreatedAt, scanTodo] using hab
  · intro htext t
    rw [hdef, htext]
    constructor
    · rintro ⟨v, hv, heq⟩
      rw [hv, (sqlEq_text_iff env v date).mp heq]
    · intro h
      exact ⟨_, h, (sqlEq_text_iff env _ date).mpr rfl⟩

/-- Witness of C11 on `daySampleStore`: the day 2024-06-10 lists todos 4, 2, 1
in this order, todo 2 with its category "Grocery List", each with the date as
the driver renders it. -/
theorem getTodosForDate_spec_witness :
    (daySampleStore.categories.map (fun c => c.id)).Nodup ∧
    (getTodosForDate sampleEngine "2024-06-10" daySampleStore).map
        (fun v => (v.ID, v.ScheduledDate, v.CategoryName, v.CategoryColor))
      = [(4, some "2024-06-10T00:00:00Z", "", ""),
         (2, some "2024-06-10T00:00:00Z", "Grocery List", "#059669"),
         (1, some "2024-06-10T00:00:00Z", "", "")] ∧
    (daySampleStore.todos.filter (hasDate sampleEngine "2024-06-10")).map (fun t => t.id)
      = [1, 2, 4] ∧
    (getTodosForDate sampleEngine "2024-06-10" daySampleStore).Pairwise (fun a b =>
        a.SortOrder < b.SortOrder ∨
        (a.SortOrder = b.SortOrder ∧ textLt b.CreatedAt a.CreatedAt = false)) :=
  ⟨by decide, by decide, by decide,
    (getTodosForDate_spec sampleEngine "2024-06-10" daySampleStore (by decide)).2.1⟩

/-- C12 as stated fails: deleting todo 1 of `sampleStore` at a later time
keeps its child, todo 3, and clears the child's `parent_id`, but the child's
`updated_at` changes from "2024-06-07 18:00:00" to the time of the call: not
all its other fields are unchanged. -/
theorem DeleteTodo_child_updated_at_changes :
    (DeleteTodo "2024-06-10 07:00:00" 1 sampleStore).2.todos.filter (fun t => t.id == 3)
      = [{ id := 3, title := "Call home", completed := true, category_id := none,
           scheduled_date := some (SqlValue.text "2024-06-07"), sort_order := 0, color := none,
           recurring_pattern := none, parent_id := none,
           created_at := "2024-06-07 10:00:00", updated_at := "2024-06-10 07:00:00" }] ∧
    sampleStore.todos.filter (fun t => t.id == 3)
      = [{ id := 3, title := "Call home", completed := true, category_id := none,
           scheduled_date := some (SqlValue.text "2024-06-07"), sort_order := 0, color := none,
           recurring_pattern := none, parent_id := some 1,
           created_at := "2024-06-07 10:00:00", updated_at := "2024-06-07 18:00:00" }] := by
  decide

/-- C12, amended: `DeleteTodo p` always succeeds; afterwards no todo has id
`p`, and the remaining rows are the other todos, in order, none missing: a todo
whose `parent_id` was `p` (with `p` stored) has `parent_id` absent, `updated_at`
set to the time of the call by the schema's update trigger, and every other
column unchanged; every other todo is unchanged. -/
theorem DeleteTodo_spec (now : String) (p : Int) (st : Store) :
    (DeleteTodo now p st).1
        = okResponse StatusOK "Todo deleted successfully" ResponseData.none ∧
    (∀ t ∈ (DeleteTodo now p st).2.todos, t.id ≠ p) ∧
    (DeleteTodo now p st).2.categories = st.categories ∧
    List.Forall₂
      (fun t t2 =>
        (todoExists st p = true → t.parent_id = some p →
          t2 = { t with parent_id := none, updated_at := now }) ∧
        ((todoExists st p = false ∨ t.parent_id ≠ some p) → t2 = t))
      (st.todos.filter (fun t => t.id != p)) (DeleteTodo now p st).2.todos := by
  unfold DeleteTodo deleteTodo
  by_cases hex : todoExists st p = true
  · rw [if_pos hex]
    refine ⟨rfl, ?_, rfl, ?_⟩
    · intro t ht
      simp only [List.mem_map, List.mem_filter] at ht
      obtain ⟨t0, ⟨_, hne⟩, rfl⟩ := ht
      have hne2 : t0.id ≠ p := by simpa using hne
      split <;> exact hne2
    · simp only [List.forall₂_map_right_iff]
      rw [List.forall₂_same]
      intro t _
      by_cases hpar : t.parent_id = some p
      · rw [if_pos hpar]
        refine ⟨fun _ _ => rfl, ?_⟩
        rintro (h | h)
        · rw [hex] at h
          cases h
        · exact absurd hpar h
      · rw [if_neg hpar]
        exact ⟨fun _ h => absurd h hpar, fun _ => rfl⟩
  · rw [if_neg hex]
    have hex2 : todoExists st p = false := by simpa using hex
    have hall : ∀ t ∈ st.todos, t.id ≠ p := by
      simpa [todoExists] using hex2
    have hfilter : st.todos.filter (fun t => t.id != p) = st.todos := by
      rw [List.filter_eq_self]
      intro t ht
      simpa using hall t ht
    refine ⟨rfl, hall, rfl, ?_⟩
    rw [hfilter, List.forall₂_same]
    intro t _
    refine ⟨fun h => ?_, fun _ => rfl⟩
    rw [hex2] at h
    cases h

/-! ### The dashboard week -/

/-- Adding days that keep a time within 2^62 seconds of 1970 does not wrap. -/
theorem AddDate_eq (t days : Int) (hlo : -4611686018427387904 ≤ t + days * 86400)
    (hhi : t + days * 86400 ≤ 4611686018427387904) :
    AddDate t days = t + days * 86400 := by
  unfold AddDate wrapAbs unixToAbsolute
  omega

theorem unixDay_add_days (t days : Int) : unixDay (t + days * 86400) = unixDay t + days := by
  unfold unixDay
  omega

/-! ### The calendar conversion -/

theorem civilFromDays_eq (z : Int) :
    civilFromDays z =
      civilOfYearDay ((z + 719468) / 146097) (yearNumerator ((z + 719468) % 146097) / 365)
        ((z + 719468) % 146097
          - daysBeforeYear (yearNumerator ((z + 719468) % 146097) / 365)) := rfl

theorem yearNumerator_step (doe : Int) (h0 : 0 ≤ doe) (h1 : doe < 146096) :
    yearNumerator doe ≤ yearNumerator (doe + 1) := by
  unfold yearNumerator
  omega

theorem yearNumerator_mono (n : Nat) :
    ∀ a : Int, 0 ≤ a → a + n ≤ 146096 → yearNumerator a ≤ yearNumerator (a + n) := by
  induction n with
  | zero => intro a _ _; simp
  | succ n ih =>
    intro a h0 h1
    have h2 := ih a h0 (by push_cast at h1; omega)
    have h3 := yearNumerator_step (a + n) (by omega) (by push_cast at h1; omega)
    have h4 : a + ((n + 1 : Nat) : Int) = a + n + 1 := by push_cast; ring
    rw [h4]
    exact le_trans h2 h3

theorem yearNumerator_le {a b : Int} (h0 : 0 ≤ a) (hab : a ≤ b) (hb : b ≤ 146096) :
    yearNumerator a ≤ yearNumerator b := by
  have h := yearNumerator_mono (b - a).toNat a h0 (by omega)
  have h2 : a + ((b - a).toNat : Int) = b := by omega
  rw [h2] at h
  exact h

set_option maxRecDepth 100000 in
theorem yearNumerator_table (y : Nat) (h : y < 400) :
    365 * (y : Int) ≤ yearNumerator (daysBeforeYear y) ∧
    yearNumerator (daysBeforeYear ((y : Int) + 1) - 1) ≤ 365 * (y : Int) + 364 := by
  revert y
  decide

theorem yearNumerator_table_int (y : Int) (h0 : 0 ≤ y) (h1 : y ≤ 399) :
    365 * y ≤ yearNumerator (daysBeforeYear y) ∧
    yearNumerator (daysBeforeYear (y + 1) - 1) ≤ 365 * y + 364 := by
  obtain ⟨n, rfl⟩ := Int.eq_ofNat_of_zero_le h0
  exact yearNumerator_table n (by omega)

theorem daysBeforeYear_mono {a b : Int} (hab : a ≤ b) :
    daysBeforeYear a ≤ daysBeforeYear b := by
  unfold daysBeforeYear
  omega

/-- The year of the era a day falls in. -/
theorem yearOfEra_bounds (doe : Int) (h0 : 0 ≤ doe) (h1 : doe ≤ 146096) :
    0 ≤ yearNumerator doe / 365 ∧ yearNumerator doe / 365 ≤ 399 ∧
    daysBeforeYear (yearNumerator doe / 365) ≤ doe ∧
    (yearNumerator doe / 365 ≤ 398 → doe < daysBeforeYear (yearNumerator doe / 365 + 1)) := by
  have hz : yearNumerator 0 = 0 := by decide
  have htop : yearNumerator 146096 = 145999 := by decide
  have hlo := yearNumerator_le (le_refl 0) h0 h1
  have hhi := yearNumerator_le h0 h1 (le_refl 146096)
  rw [hz] at hlo
  rw [htop] at hhi
  have hy0 : 0 ≤ yearNumerator doe / 365 := by omega
  have hy1 : yearNumerator doe / 365 ≤ 399 := by omega
  refine ⟨hy0, hy1, ?_, ?_⟩
  · by_contra hlt
    have hlt2 : doe < daysBeforeYear (yearNumerator doe / 365) := by omega
    have hpos : 1 ≤ yearNumerator doe / 365 := by
      by_contra h
      have : yearNumerator doe / 365 = 0 := by omega
      rw [this] at hlt2
      have : daysBeforeYear 0 = 0 := by decide
      omega
    have ht := (yearNumerator_table_int (yearNumerator doe / 365 - 1) (by omega) (by omega)).2
    have hsimp : yearNumerator doe / 365 - 1 + 1 = yearNumerator doe / 365 := by omega
    rw [hsimp] at ht
    have hb : daysBeforeYear (yearNumerator doe / 365) - 1 ≤ 146096 := by
      have := daysBeforeYear_mono hy1
      have h399 : daysBeforeYear 399 = 145731 := by decide
      omega
    have hm := yearNumerator_le h0 (by omega : doe ≤ daysBeforeYear (yearNumerator doe / 365) - 1) hb
    omega
  · intro h398
    by_contra hge
    have hge2 : daysBeforeYear (yearNumerator doe / 365 + 1) ≤ doe := by omega
    have ht := (yearNumerator_table_int (yearNumerator doe / 365 + 1) (by omega) (by omega)).1
    have hnn : 0 ≤ daysBeforeYear (yearNumerator doe / 365 + 1) := by
      have := daysBeforeYear_mono (by omega : (0 : Int) ≤ yearNumerator doe / 365 + 1)
      have h00 : daysBeforeYear 0 = 0 := by decide
      omega
    have hm := yearNumerator_le hnn hge2 h1
    omega

theorem isLeapYear_iff (y : Int) :
    isLeapYear y = true ↔ ((y % 4 = 0 ∧ y % 100 ≠ 0) ∨ y % 400 = 0) := by
  unfold isLeapYear
  exact decide_eq_true_iff

set_option maxRecDepth 100000 in
theorem monthDay_table (n : Nat) (h : n < 364) :
    1 ≤ (monthDay n).1 ∧ (monthDay n).1 ≤ 12 ∧ 1 ≤ (monthDay n).2 ∧
    (monthDay n).2 ≤ daysInMonth 1 (monthDay n).1 ∧
    ((monthDay n).1 = 2 → (monthDay n).2 < 28) ∧
    ((monthDay n).2 < daysInMonth 1 (monthDay n).1 →
      monthDay ((n : Int) + 1) = ((monthDay n).1, (monthDay n).2 + 1)) ∧
    ((monthDay n).2 = daysInMonth 1 (monthDay n).1 →
      monthDay ((n : Int) + 1) = (if (monthDay n).1 < 12 then (monthDay n).1 + 1 else 1, 1)) := by
  revert n
  decide

theorem daysInMonth_of_ne_two (y m : Int) (h : m ≠ 2) : daysInMonth y m = daysInMonth 1 m := by
  unfold daysInMonth
  simp [h]

theorem daysInMonth_two (y : Int) :
    daysInMonth y 2 = if isLeapYear y = true then 29 else 28 := by
  unfold daysInMonth
  simp

/-- Within a year from 1 March, before 28 February, the next day of the year
is the next day of the calendar. -/
theorem civilOfYearDay_succ (era y doy : Int) (h0 : 0 ≤ doy) (h1 : doy < 364) :
    civilOfYearDay era y (doy + 1) = nextCivilDay (civilOfYearDay era y doy) := by
  obtain ⟨n, rfl⟩ := Int.eq_ofNat_of_zero_le h0
  obtain ⟨t1, t2, t3, t4, t5, t6, t7⟩ := monthDay_table n (by omega)
  unfold civilOfYearDay nextCivilDay
  generalize monthDay (n : Int) = md at *
  obtain ⟨m, d⟩ := md
  simp only at t1 t2 t3 t4 t5 t6 t7 ⊢
  by_cases hm2 : m = 2
  · subst hm2
    have hd := t5 rfl
    have hdim : daysInMonth 1 2 = 28 := by decide
    rw [hdim] at t6
    rw [t6 hd]
    have hlt : d < daysInMonth (era * 400 + y + 1) 2 := by
      rw [daysInMonth_two]
      split <;> omega
    have e : y + era * 400 + 1 = era * 400 + y + 1 := by ring
    simp only [le_refl, if_true, e, hlt]
  · rw [daysInMonth_of_ne_two _ m hm2]
    by_cases hlt : d < daysInMonth 1 m
    · rw [t6 hlt]
      simp only [hlt, if_true]
    · have heq : d = daysInMonth 1 m := by omega
      rw [t7 heq]
      simp only [hlt, if_false]
      by_cases h12 : m < 12
      · simp only [h12, if_true]
        have : (m + 1 ≤ 2) ↔ (m ≤ 2) := by omega
        simp only [this]
      · have : m = 12 := by omega
        subst this
        simp

/-- From 28 February of a leap year the next day of the year is 29 February. -/
theorem civilOfYearDay_leap_day (era y : Int) (hleap : isLeapYear (y + era * 400 + 1) = true) :
    civilOfYearDay era y 365 = nextCivilDay (civilOfYearDay era y 364) := by
  have h364 : monthDay 364 = (2, 28) := by decide
  have h365 : monthDay 365 = (2, 29) := by decide
  unfold civilOfYearDay nextCivilDay
  rw [h364, h365]
  simp [daysInMonth_two, hleap]

/-- After the last day of February comes 1 March, the first day of the next
year from 1 March. -/
theorem civilOfYearDay_year_end (era y era2 y2 doy : Int)
    (hy : y2 + era2 * 400 = y + era * 400 + 1)
    (hdoy : (doy = 364 ∧ isLeapYear (y + era * 400 + 1) = false) ∨
      (doy = 365 ∧ isLeapYear (y + era * 400 + 1) = true)) :
    civilOfYearDay era2 y2 0 = nextCivilDay (civilOfYearDay era y doy) := by
  have h0 : monthDay 0 = (3, 1) := by decide
  have h364 : monthDay 364 = (2, 28) := by decide
  have h365 : monthDay 365 = (2, 29) := by decide
  unfold civilOfYearDay nextCivilDay
  rcases hdoy with ⟨rfl, hl⟩ | ⟨rfl, hl⟩
  · rw [h0, h364]
    simp [daysInMonth_two, hl, hy]
  · rw [h0, h365]
    simp [daysInMonth_two, hl, hy]

theorem daysBeforeYear_succ (y : Int) :
    daysBeforeYear (y + 1) = daysBeforeYear y + 365 ∨
    daysBeforeYear (y + 1) = daysBeforeYear y + 366 ∨
    daysBeforeYear (y + 1) = daysBeforeYear y + 364 := by
  unfold daysBeforeYear
  omega

/-- The day after a day is the next day of the calendar. -/
theorem civilFromDays_succ (z : Int) :
    civilFromDays (z + 1) = nextCivilDay (civilFromDays z) := by
  rw [civilFromDays_eq, civilFromDays_eq]
  have hz : z + 1 + 719468 = z + 719468 + 1 := by ring
  rw [hz]
  generalize z + 719468 = z0
  have hr0 : 0 ≤ z0 % 146097 := by omega
  have hr1 : z0 % 146097 ≤ 146096 := by omega
  by_cases hlast : z0 % 146097 = 146096
  · have he : (z0 + 1) / 146097 = z0 / 146097 + 1 := by omega
    have hr : (z0 + 1) % 146097 = 0 := by omega
    rw [he, hr, hlast]
    have hy0 : yearNumerator 0 / 365 = 0 := by decide
    have hy : yearNumerator 146096 / 365 = 399 := by decide
    have hd0 : (0 : Int) - daysBeforeYear 0 = 0 := by decide
    have hd : (146096 : Int) - daysBeforeYear 399 = 365 := by decide
    rw [hy0, hy, hd0, hd]
    apply civilOfYearDay_year_end
    · ring
    · right
      refine ⟨rfl, ?_⟩
      rw [isLeapYear_iff]
      omega
  · have he : (z0 + 1) / 146097 = z0 / 146097 := by omega
    have hr : (z0 + 1) % 146097 = z0 % 146097 + 1 := by omega
    rw [he, hr]
    generalize z0 % 146097 = r at *
    generalize z0 / 146097 = era
    obtain ⟨a0, a1, a2, a3⟩ := yearOfEra_bounds r hr0 hr1
    obtain ⟨b0, b1, b2, b3⟩ := yearOfEra_bounds (r + 1) (by omega) (by omega)
    have hstep := yearNumerator_step r hr0 (by omega)
    generalize hyd : yearNumerator r / 365 = y at *
    generalize hyd2 : yearNumerator (r + 1) / 365 = y2 at *
    have hle : y ≤ y2 := by omega
    have hcases : y2 = y ∨ (y2 = y + 1 ∧ r + 1 = daysBeforeYear (y + 1)) := by
      by_cases h : y2 = y
      · exact Or.inl h
      · right
        have h398 : y ≤ 398 := by omega
        have hm := daysBeforeYear_mono (by omega : y + 1 ≤ y2)
        have h3 := a3 h398
        have heq : r + 1 = daysBeforeYear (y + 1) := by omega
        refine ⟨?_, heq⟩
        by_contra hne
        have hm2 := daysBeforeYear_mono (by omega : y + 2 ≤ y2)
        have hs : daysBeforeYear (y + 1 + 1) = daysBeforeYear (y + 1) + 365 ∨
            daysBeforeYear (y + 1 + 1) = daysBeforeYear (y + 1) + 366 ∨
            daysBeforeYear (y + 1 + 1) = daysBeforeYear (y + 1) + 364 :=
          daysBeforeYear_succ (y + 1)
        have e2 : y + 1 + 1 = y + 2 := by ring
        rw [e2] at hs
        omega
    have hgap := daysBeforeYear_succ y
    have hleapiff : isLeapYear (y + era * 400 + 1) = true ↔
        (daysBeforeYear (y + 1) = daysBeforeYear y + 366 ∨ y = 399) := by
      rw [isLeapYear_iff]
      unfold daysBeforeYear
      omega
    rcases hcases with rfl | ⟨rfl, hrn⟩
    · have hdoy : r + 1 - daysBeforeYear y2 = (r - daysBeforeYear y2) + 1 := by ring
      rw [hdoy]
      have h399 : daysBeforeYear 399 = 145731 := by decide
      have hd364 : r - daysBeforeYear y2 ≤ 364 := by
        by_cases h : y2 ≤ 398
        · have := b3 h
          omega
        · have : y2 = 399 := by omega
          subst this
          omega
      by_cases hlt : r - daysBeforeYear y2 < 364
      · exact civilOfYearDay_succ era y2 _ (by omega) hlt
      · have heq : r - daysBeforeYear y2 = 364 := by omega
        rw [heq]
        apply civilOfYearDay_leap_day
        rw [hleapiff]
        by_cases h : y2 ≤ 398
        · have := b3 h
          left
          omega
        · right
          omega
    · have hd0 : r + 1 - daysBeforeYear (y + 1) = 0 := by omega
      rw [hd0]
      apply civilOfYearDay_year_end era y era (y + 1) (r - daysBeforeYear y)
      · ring
      · have h398 : y ≤ 398 := by omega
        by_cases hl : isLeapYear (y + era * 400 + 1) = true
        · right
          refine ⟨?_, hl⟩
          have := hleapiff.mp hl
          omega
        · left
          have hl2 : isLeapYear (y + era * 400 + 1) = false := by simpa using hl
          refine ⟨?_, hl2⟩
          have hn : ¬ (daysBeforeYear (y + 1) = daysBeforeYear y + 366 ∨ y = 399) :=
            fun h => hl (hleapiff.mpr h)
          have hge : daysBeforeYear (y + 1) ≥ daysBeforeYear y + 365 := by
            unfold daysBeforeYear
            omega
          omega

theorem civilFromDays_epoch : civilFromDays 0 = (1970, 1, 1) := by decide

/-- The weekday names follow each other in the order of the week. -/
theorem formatWeekday_succ (z : Int) :
    formatWeekday (z + 1) = nextWeekday (formatWeekday z) := by
  unfold formatWeekday
  have h2 : (z + 1 + 4) % 7 = ((z + 4) % 7 + 1) % 7 := by omega
  have h : (z + 4) % 7 = 0 ∨ (z + 4) % 7 = 1 ∨ (z + 4) % 7 = 2 ∨ (z + 4) % 7 = 3 ∨
      (z + 4) % 7 = 4 ∨ (z + 4) % 7 = 5 ∨ (z + 4) % 7 = 6 := by omega
  rw [h2]
  rcases h with h | h | h | h | h | h | h <;> rw [h] <;> decide

/-- C13 as stated fails: read at 2024-06-10 12:00:00 with the offset
9223372036854775807, the day count of `AddDate` wraps and the week starts on
2024-06-09, the day before today, not 9223372036854775807 days after it. -/
theorem GetDashboard_week_wraps :
    unixDay 1718020800 = 19884 ∧ formatDate 19884 = "2024-06-10" ∧
    (match (GetDashboard sampleEngine 1718020800 1718020800 (some 9223372036854775807)
        sampleStore).data with
     | ResponseData.dashboard d =>
       (d.TodayDate, d.WeekStartDate, d.WeeklyTodos.map (fun (v : WeeklyTodos) => v.Date))
     | _ => ("", "", []))
      = ("2024-06-10", "2024-06-09",
          ["2024-06-09", "2024-06-10", "2024-06-11", "2024-06-12", "2024-06-13",
           "2024-06-14", "2024-06-15"]) ∧
    dayView sampleEngine (19884 + 9223372036854775807) sampleStore
      = { Date := "25252734927768579-01-04", Day := "Monday", Todos := [] } := by
  decide

/-- C13, amended: when both clock readings of `GetDashboard` fall on the same
day `today` and the offset keeps the seven days within 2^62 seconds of
1970-01-01, so that the 64-bit arithmetic of `AddDate` does not wrap, the answer
holds exactly 7 day-views, those of the consecutive days `today + offset`, ...,
`today + offset + 6` in this order, each with the date, the weekday name and
the `getTodosForDate` result of its day; `week_start_date` is the date of the
first view and `today_date` is the date of `today` whatever the offset. An
offset that does not parse counts as 0. The dates and weekday names are those
of the calendar: the civil date of each day is the day after the civil date of
the day before, day 0 being 1970-01-01, a Thursday; each weekday name is the
one after the name of the day before; and a date is written as four digits of
year, two of month and two of day. -/
theorem GetDashboard_week (env : Engine) (now1 now2 offset : Int) (st : Store)
    (hday : unixDay now2 = unixDay now1)
    (hlo : -4611686018427387904 ≤ now2 + offset * 86400)
    (hhi : now2 + (offset + 6) * 86400 ≤ 4611686018427387904) :
    (∃ d : DashboardData,
      GetDashboard env now1 now2 (some offset) st
        = okResponse StatusOK "" (ResponseData.dashboard d) ∧
      d.WeeklyTodos.length = 7 ∧
      d.WeeklyTodos =
        [dayView env (unixDay now1 + offset) st, dayView env (unixDay now1 + offset + 1) st,
         dayView env (unixDay now1 + offset + 2) st, dayView env (unixDay now1 + offset + 3) st,
         dayView env (unixDay now1 + offset + 4) st, dayView env (unixDay now1 + offset + 5) st,
         dayView env (unixDay now1 + offset + 6) st] ∧
      d.WeekStartDate = formatDate (unixDay now1 + offset) ∧
      d.WeeklyTodos.head?.map (fun v => v.Date) = some d.WeekStartDate ∧
      d.TodayDate = formatDate (unixDay now1) ∧
      d.SomedayTodos = getSomedayTodos env st ∧
      d.Categories = getCategories st) ∧
    GetDashboard env now1 now2 none st = GetDashboard env now1 now2 (some 0) st ∧
    (∀ z : Int, civilFromDays (z + 1) = nextCivilDay (civilFromDays z)) ∧
    civilFromDays 0 = (1970, 1, 1) ∧
    (∀ z : Int, formatWeekday (z + 1) = nextWeekday (formatWeekday z)) ∧
    formatWeekday 0 = "Thursday" ∧
    formatDate 0 = "1970-01-01" ∧ formatDate 19782 = "2024-02-29" ∧
    formatDate (-719162) = "0001-01-01" ∧ formatDate 2932896 = "9999-12-31" := by
  have hstart : AddDate now2 offset = now2 + offset * 86400 :=
    AddDate_eq now2 offset hlo (by omega)
  have hi : ∀ i : Int, 0 ≤ i → i ≤ 6 →
      unixDay (AddDate (now2 + offset * 86400) i) = unixDay now1 + offset + i := by
    intro i h0 h6
    rw [AddDate_eq _ i (by omega) (by omega), unixDay_add_days, unixDay_add_days, hday]
  have hs : unixDay (now2 + offset * 86400) = unixDay now1 + offset := by
    rw [unixDay_add_days, hday]
  have h0 := hi 0 (by decide) (by decide)
  have h1 := hi 1 (by decide) (by decide)
  have h2 := hi 2 (by decide) (by decide)
  have h3 := hi 3 (by decide) (by decide)
  have h4 := hi 4 (by decide) (by decide)
  have h5 := hi 5 (by decide) (by decide)
  have h6 := hi 6 (by decide) (by decide)
  rw [add_zero] at h0
  have hr : List.range 7 = [0, 1, 2, 3, 4, 5, 6] := by decide
  have hweek : (List.range 7).map (fun (i : Nat) =>
      ({ Date := formatDate (unixDay (AddDate (AddDate now2 offset) (i : Int))),
         Day := formatWeekday (unixDay (AddDate (AddDate now2 offset) (i : Int))),
         Todos := getTodosForDate env
           (formatDate (unixDay (AddDate (AddDate now2 offset) (i : Int)))) st } : WeeklyTodos))
      = [dayView env (unixDay now1 + offset) st, dayView env (unixDay now1 + offset + 1) st,
         dayView env (unixDay now1 + offset + 2) st, dayView env (unixDay now1 + offset + 3) st,
         dayView env (unixDay now1 + offset + 4) st, dayView env (unixDay now1 + offset + 5) st,
         dayView env (unixDay now1 + offset + 6) st] := by
    rw [hr, hstart]
    simp only [List.map_cons, List.map_nil, Nat.cast_ofNat, Nat.cast_zero, Nat.cast_one,
      h0, h1, h2, h3, h4, h5, h6, dayView]
  refine ⟨⟨_, rfl, ?_, hweek, ?_, ?_, rfl, rfl, rfl⟩, rfl, civilFromDays_succ,
    civilFromDays_epoch, formatWeekday_succ, by decide, by decide, by decide, by decide,
    by decide⟩
  · rfl
  · show formatDate (unixDay (AddDate now2 offset)) = _
    rw [hstart, hs]
  · show Option.map (fun (v : WeeklyTodos) => v.Date) (List.head? _)
      = some (formatDate (unixDay (AddDate now2 offset)))
    rw [hweek, hstart, hs]
    rfl

/-- Witness of the amended C13: the week read on 2024-02-27 at noon with offset
0 runs over the leap day into March; with offset -1 it starts on Monday
2024-02-26 and `today_date` stays 2024-02-27. -/
theorem GetDashboard_week_witness :
    (unixDay 1709035200 = 19780 ∧
      dayView sampleEngine 19780 sampleStore
        = { Date := "2024-02-27", Day := "Tuesday", Todos := [] } ∧
      dayView sampleEngine 19782 sampleStore
        = { Date := "2024-02-29", Day := "Thursday", Todos := [] } ∧
      dayView sampleEngine 19783 sampleStore
        = { Date := "2024-03-01", Day := "Friday", Todos := [] }) ∧
    ∃ d : DashboardData,
      GetDashboard sampleEngine 1709035200 1709035201 (some (-1)) sampleStore
        = okResponse StatusOK "" (ResponseData.dashboard d) ∧
      d.WeeklyTodos.length = 7 ∧
      d.WeekStartDate = formatDate (unixDay 1709035200 + -1) ∧
      d.TodayDate = formatDate (unixDay 1709035200) := by
  refine ⟨by decide, ?_⟩
  obtain ⟨⟨d, h1, h2, _, h4, _, h6, _⟩, _⟩ :=
    GetDashboard_week sampleEngine 1709035200 1709035201 (-1) sampleStore
      (by decide) (by decide) (by decide)
  exact ⟨d, h1, h2, h4, h6⟩

/-! ### The someday list -/

theorem exists_mem_joinCategories (st : Store) (t : Todo) :
    ∃ r ∈ joinCategories st t, r.1 = t := by
  unfold joinCategories
  cases st.categories.filter (fun c => t.category_id == some c.id) with
  | nil => exact ⟨(t, none), List.mem_singleton.mpr rfl, rfl⟩
  | cons c cs => exact ⟨(t, some c), by simp, rfl⟩

/-- Every undated todo is in the someday list. -/
theorem mem_getSomedayTodos_of_mem (env : Engine) {st : Store} {t : Todo} (ht : t ∈ st.todos)
    (hd : t.scheduled_date = none) :
    ∃ v ∈ getSomedayTodos env st, ∃ c, v = scanTodo env (t, c) := by
  obtain ⟨r, hr, hrt⟩ := exists_mem_joinCategories st t
  have hjoin : r ∈ leftJoinCategories st := List.mem_flatMap.mpr ⟨t, ht, hr⟩
  have hfilter : r ∈ (leftJoinCategories st).filter (fun r => r.1.scheduled_date == none) :=
    List.mem_filter.mpr ⟨hjoin, by simp [hrt, hd]⟩
  refine ⟨scanTodo env r, ?_, r.2, ?_⟩
  · unfold getSomedayTodos
    exact List.mem_map_of_mem (scanTodo env) ((orderBy_perm _ _).mem_iff.mpr hfilter)
  · rw [← hrt]

/-- Every result of a day's list is the scan of a stored todo with a date. -/
theorem mem_getTodosForDate {env : Engine} {st : Store} {date : String} {v : TodoView}
    (hv : v ∈ getTodosForDate env date st) :
    ∃ t ∈ st.todos, v.ID = t.id ∧ t.scheduled_date ≠ none := by
  unfold getTodosForDate at hv
  obtain ⟨r, hr, rfl⟩ := List.mem_map.mp hv
  obtain ⟨hjoin, hdate⟩ := List.mem_filter.mp ((orderBy_perm _ _).mem_iff.mp hr)
  refine ⟨r.1, (mem_leftJoinCategories hjoin).1, rfl, ?_⟩
  intro hnone
  simp [hasDate, hnone] at hdate

/-- The `SET` clause breaks the foreign key only through a supplied
`category_id` that names no category. -/
theorem setParts_any_breaksForeignKey (req : UpdateTodoRequest) (st : Store)
    (hcat : ∀ c, req.CategoryID = some c → categoryExists st c = true) :
    (setParts req).any (TodoSet.breaksForeignKey st) = false := by
  rcases req with ⟨_ | a, _ | b, _ | c, _ | d, _ | e, _ | f⟩ <;>
    simp [setParts, TodoSet.breaksForeignKey] at hcat ⊢ <;> exact hcat

/-- An update that supplies a date and no unknown category is carried out. -/
theorem UpdateTodo_of_date_supplied (now : String) (todoID : Int) (req : UpdateTodoRequest)
    (st : Store) (v : String) (hd : req.ScheduledDate = some v)
    (hcat : ∀ c, req.CategoryID = some c → categoryExists st c = true) :
    UpdateTodo now todoID req st
      = (okResponse StatusOK "Todo updated successfully" ResponseData.none,
          { st with todos := st.todos.map (fun t =>
              if t.id = todoID then
                { (setParts req).foldl TodoSet.apply t with updated_at := now }
              else t) }) := by
  have h0 : ¬ (setParts req).length = 0 := by
    rcases req with ⟨_ | a, _ | b, _ | c, _ | d, _ | e, _ | f⟩ <;> simp [setParts] at hd ⊢
  unfold UpdateTodo
  rw [if_neg h0]
  unfold updateTodo
  rw [setParts_any_breaksForeignKey req st hcat]
  simp

/-- A `CreateTodo` that reports success appended one row, whose id is new and
is the one it returns and whose date is the request's. -/
theorem CreateTodo_of_success (now : String) (req : CreateTodoRequest) (st : Store)
    (hok : (CreateTodo now req st).1.success = true) :
    ∃ t : Todo,
      (CreateTodo now req st).2.todos = st.todos ++ [t] ∧
      (CreateTodo now req st).1.data = ResponseData.id t.id ∧
      t.scheduled_date = (nullString req.ScheduledDate).map numericAffinity ∧
      ∀ t0 ∈ st.todos, t0.id < t.id := by
  unfold CreateTodo at hok ⊢
  by_cases h : req.Title = ""
  · rw [if_pos h] at hok
    cases hok
  · rw [if_neg h] at hok ⊢
    unfold insertTodo at hok ⊢
    dsimp only at hok ⊢
    split_ifs at hok ⊢ with hfk
    · exact ⟨_, rfl, rfl, rfl,
        fun t0 ht0 => lt_nextId _ _ _ (List.mem_map_of_mem (fun t => t.id) ht0)⟩
    · cases hok

/-- C14 as stated fails: todo 1 of `sampleStore` is dated 2024-06-09; an
`UpdateTodo` request for it that supplies `scheduled_date = ""` together with
`category_id` 99, the id of no category, is rejected by the foreign key, and
the todo keeps its date. -/
theorem UpdateTodo_empty_date_with_unknown_category_keeps_date :
    UpdateTodo "2024-06-10 07:00:00" 1
        { Title := none, Completed := none, CategoryID := some 99, ScheduledDate := some "",
          SortOrder := none, Color := none } sampleStore
      = (errResponse StatusInternalServerError
          "Failed to update todo: FOREIGN KEY constraint failed", sampleStore) ∧
    (sampleStore.todos.filter (fun t => t.id == 1)).map (fun t => t.scheduled_date)
      = [some (SqlValue.text "2024-06-09")] := by
  decide

/-- C14, amended: `nullString s` is `NULL` exactly when `s` is empty and is `s`
otherwise. An `UpdateTodo` request that supplies `scheduled_date = ""` and
whose `category_id`, if supplied, names an existing category succeeds, and
every stored todo with the given id is then undated, present in the someday
list and in no date's list. A `CreateTodo` request with empty (or omitted)
`scheduled_date` that succeeds appends a todo that is undated, present in
the someday list and in no date's list. -/
theorem empty_scheduled_date_is_someday :
    (∀ s : String, (nullString s = none ↔ s = "") ∧ (s ≠ "" → nullString s = some s)) ∧
    (∀ (env : Engine) (now : String) (todoID : Int) (req : UpdateTodoRequest) (st : Store),
      req.ScheduledDate = some "" →
      (∀ c, req.CategoryID = some c → ∃ cat ∈ st.categories, cat.id = c) →
      (UpdateTodo now todoID req st).1.success = true ∧
      (∀ t ∈ st.todos, t.id = todoID →
        ∃ t2 ∈ (UpdateTodo now todoID req st).2.todos, t2.id = todoID) ∧
      (∀ t2 ∈ (UpdateTodo now todoID req st).2.todos, t2.id = todoID →
        t2.scheduled_date = none ∧
        (∃ v ∈ getSomedayTodos env (UpdateTodo now todoID req st).2,
          ∃ c, v = scanTodo env (t2, c)) ∧
        ∀ date, ∀ v ∈ getTodosForDate env date (UpdateTodo now todoID req st).2,
          v.ID ≠ todoID)) ∧
    (∀ (env : Engine) (now : String) (req : CreateTodoRequest) (st : Store),
      req.ScheduledDate = "" → (CreateTodo now req st).1.success = true →
      ∃ t : Todo,
        (CreateTodo now req st).2.todos = st.todos ++ [t] ∧
        (CreateTodo now req st).1.data = ResponseData.id t.id ∧
        t.scheduled_date = none ∧
        (∃ v ∈ getSomedayTodos env (CreateTodo now req st).2,
          ∃ c, v = scanTodo env (t, c)) ∧
        ∀ date, ∀ v ∈ getTodosForDate env date (CreateTodo now req st).2,
          v.ID ≠ t.id) := by
  refine ⟨?_, ?_, ?_⟩
  · intro s
    unfold nullString
    by_cases h : s = ""
    · simp [h]
    · simp [h]
  · intro env now todoID req st hd hcat
    have hcat2 : ∀ c, req.CategoryID = some c → categoryExists st c = true := by
      intro c hc
      obtain ⟨cat, hmem, hid⟩ := hcat c hc
      simp only [categoryExists, List.any_eq_true, beq_iff_eq]
      exact ⟨cat, hmem, hid⟩
    rw [UpdateTodo_of_date_supplied now todoID req st "" hd hcat2]
    have hrow : ∀ t2 ∈ st.todos.map (fun t =>
          if t.id = todoID then
            { (setParts req).foldl TodoSet.apply t with updated_at := now }
          else t),
        t2.id = todoID → t2.scheduled_date = none := by
      intro t2 ht2 hid
      obtain ⟨t0, _, rfl⟩ := List.mem_map.mp ht2
      by_cases h0 : t0.id = todoID
      · rw [if_pos h0, foldl_setParts, hd]
        rfl
      · rw [if_neg h0] at hid
        exact absurd hid h0
    refine ⟨rfl, ?_, ?_⟩
    · intro t ht hid
      refine ⟨_, List.mem_map_of_mem _ ht, ?_⟩
      rw [if_pos hid, foldl_setParts]
      exact hid
    · intro t2 ht2 hid
      have hnone := hrow t2 ht2 hid
      refine ⟨hnone, mem_getSomedayTodos_of_mem env ht2 hnone, ?_⟩
      intro date v hv hvid
      obtain ⟨t3, hmem, hid3, hdate⟩ := mem_getTodosForDate hv
      exact hdate (hrow t3 hmem (by rw [← hid3, hvid]))
  · intro env now req st hd hok
    obtain ⟨row, htodos, hdata, hrow, hfresh⟩ := CreateTodo_of_success now req st hok
    have hnone : row.scheduled_date = none := by
      rw [hrow, hd]
      rfl
    have hmem : row ∈ (CreateTodo now req st).2.todos := by
      rw [htodos]
      simp
    refine ⟨row, htodos, hdata, hnone, mem_getSomedayTodos_of_mem env hmem hnone, ?_⟩
    intro date v hv hveq
    obtain ⟨t3, hmem3, hid3, hdate⟩ := mem_getTodosForDate hv
    rw [htodos, List.mem_append, List.mem_singleton] at hmem3
    rcases hmem3 with h | h
    · have := hfresh t3 h
      omega
    · rw [h] at hdate
      exact hdate hnone

end TeuxDeux
